import Mathlib

/-!
# integration/hsic/hsic.go: the headscale-in-container test harness

A shallow embedding of `HeadscaleInContainer` and its methods.

* Go `string` is `String`, `[]byte` is `List UInt8`, `int`/`int64` is `Int`.
* A Go `error` is `Option GoError` (`none` is `nil`).
* Calls that leave the package are parameters: the container runtime and HTTP
  are the fields of `Env`, the tar writer is a `TarLib`, the JSON encoder and
  decoder are function arguments.  Every such call is appended to a `Trace`,
  and the answer of a runtime call may depend on the trace so far, so the same
  call can be answered differently the second time.
-/

namespace Hsic

/-! ## Errors -/

/-- A Go error value: `mk text` is `errors.New(text)` (or any error made
outside this package), `wrap pre cause` is `fmt.Errorf(pre + "%w", cause)`. -/
inductive GoError where
  | mk (text : String)
  | wrap (pre : String) (cause : GoError)
  deriving DecidableEq, Repr

namespace GoError

/-- The `Error()` text of an error. -/
def Error : GoError → String
  | .mk text => text
  | .wrap pre cause => pre ++ cause.Error

/-- The `errors.Unwrap` of an error. -/
def Unwrap : GoError → Option GoError
  | .mk _ => none
  | .wrap _ cause => some cause

end GoError

/-- Line 27: `var errHeadscaleStatusCodeNotOk = errors.New(...)`. -/
def errHeadscaleStatusCodeNotOk : GoError := .mk "headscale status code not ok"

/-! ## Constants (lines 21-25) -/

def hsicHashLength : Nat := 6
def dockerContextPath : String := "../."
def aclPolicyPath : String := "/etc/headscale/acl.hujson"

/-! ## Values exchanged with the collaborators -/

/-- The fields of `tar.Header` that `WriteFile` sets (all others stay zero). -/
structure TarHeader where
  Name : String
  Size : Int
  deriving DecidableEq, Repr

/-- The fields of `docker.UploadToContainerOptions` that `WriteFile` sets. -/
structure UploadToContainerOptions where
  NoOverwriteDirNonDir : Bool
  Path : String
  InputStream : List UInt8
  deriving DecidableEq, Repr

/-- The fields of `dockertest.BuildOptions` that `New` sets. -/
structure BuildOptions where
  Dockerfile : String
  ContextDir : String
  deriving DecidableEq, Repr

/-- A `*dockertest.Network`, known by its name. -/
structure Network where
  Name : String
  deriving DecidableEq, Repr

/-- The fields of `dockertest.RunOptions` that `New` sets. -/
structure RunOptions where
  Name : String
  ExposedPorts : List String
  Networks : List Network
  Entrypoint : List String
  Env : List String
  deriving DecidableEq, Repr

/-- The host-config options of `dockertestutil` that `New` passes on. -/
inductive HostConfigOption where
  | DockerRestartPolicy
  | DockerAllowLocalIPv6
  | DockerAllowNetworkAdministration
  deriving DecidableEq, Repr

/-- What `dockertestutil.ExecuteCommand` returns: `(stdout, stderr, err)`. -/
structure ExecResult where
  stdout : String
  stderr : String
  err : Option GoError
  deriving DecidableEq, Repr

/-- What `http.Get` returns: an error, or a response with its status code. -/
inductive HttpResult where
  | transportError (cause : GoError)
  | response (StatusCode : Int)
  deriving DecidableEq, Repr

/-- A `*dockertest.Resource`: the container id and what the runtime reports
about it. -/
structure Resource where
  ID : String
  GetIPInNetwork : Network → String
  GetPort : String → String

/-- The zero `Resource`; it stands for the handle before `New` assigns the
started container (nothing reads the handle before that). -/
def Resource.zero : Resource := ⟨"", fun _ => "", fun _ => ""⟩

/-- One call that leaves the package, in the order the calls are made. -/
inductive Event where
  | log (line : String)
  | logTar (archive : List UInt8)
  | GenerateRandomStringDNSSafe (n : Nat)
  | RemoveContainerByName (name : String)
  | BuildAndRunWithBuildOptions (build : BuildOptions) (run : RunOptions)
      (hostConfig : List HostConfigOption)
  | Purge (containerID : String)
  | ExecuteCommand (containerID : String) (command : List String) (env : List String)
  | tarWriteHeader (hdr : TarHeader)
  | ioCopy (data : List UInt8)
  | tarClose
  | UploadToContainer (containerID : String) (opts : UploadToContainerOptions)
  | httpGet (url : String)
  | jsonMarshal
  | jsonUnmarshal (input : String)
  deriving DecidableEq, Repr

abbrev Trace := List Event

/-- The collaborators outside the package.  Each answer may depend on the
calls made so far.  `retryDeadline err` is the error `pool.Retry` returns once
its budget is used up with `err` the error of the last attempt: `err` as it
is, or the error by which dockertest reports a reached retry deadline. -/
structure Env where
  GenerateRandomStringDNSSafe : Trace → Nat → Except GoError String
  RemoveContainerByName : Trace → String → Option GoError
  BuildAndRunWithBuildOptions :
    Trace → BuildOptions → RunOptions → List HostConfigOption → Except GoError Resource
  Purge : Trace → String → Option GoError
  ExecuteCommand : Trace → String → List String → List String → ExecResult
  UploadToContainer : Trace → String → UploadToContainerOptions → Option GoError
  httpGet : Trace → String → HttpResult
  retryDeadline : GoError → GoError
  DefaultConfigYAML : String

/-! ## Formatting helpers of package `fmt` and `log` -/

/-- The verb `%d` on an `int`. -/
def fmtD (n : Int) : String := toString n

/-- The verb `%v` on a `[]string`, as `log.Println` prints it. -/
def fmtV (xs : List String) : String := "[" ++ " ".intercalate xs ++ "]"

/-- The bytes of a string, `[]byte(s)`. -/
def bytesOf (s : String) : List UInt8 := s.toUTF8.data.toList

/-! ## The instance (lines 29-40) -/

/-- Lines 29-40.  `ACL` is `headscale.ACLPolicy`; the `pool` is the `Env`
every method takes. -/
structure HeadscaleInContainer (ACL : Type) where
  hostname : String
  port : Int
  container : Resource
  network : Network
  aclPolicy : Option ACL
  env : List String

variable {ACL : Type}

/-- Lines 154-175.  Returns `(stdout, err)` and the trace. -/
def Execute (E : Env) (t : HeadscaleInContainer ACL) (command : List String) (tr : Trace) :
    (String × Option GoError) × Trace :=
  let tr := tr ++ [Event.log ("command " ++ fmtV command)]
  let tr := tr ++ [Event.log ("running command for " ++ t.hostname)]
  let r := E.ExecuteCommand tr t.container.ID command []
  let tr := tr ++ [Event.ExecuteCommand t.container.ID command []]
  match r.err with
  | some err => (("", some err), tr ++ [Event.log ("command stderr: " ++ r.stderr)])
  | none =>
    let tr := if r.stdout ≠ "" then tr ++ [Event.log ("command stdout: " ++ r.stdout)] else tr
    ((r.stdout, none), tr)

/-! ## Accessors (lines 177-201) -/

/-- Lines 177-179. -/
def GetIP (t : HeadscaleInContainer ACL) : String :=
  t.container.GetIPInNetwork t.network

/-- Lines 181-185. -/
def GetPort (t : HeadscaleInContainer ACL) : String :=
  let portProto := fmtD t.port ++ "/tcp"
  t.container.GetPort portProto

/-- Lines 187-193. -/
def GetHealthEndpoint (t : HeadscaleInContainer ACL) : String :=
  let hostEndpoint := GetIP t ++ ":" ++ fmtD t.port
  "http://" ++ hostEndpoint ++ "/health"

/-- Lines 195-201. -/
def GetEndpoint (t : HeadscaleInContainer ACL) : String :=
  let hostEndpoint := GetIP t ++ ":" ++ fmtD t.port
  "http://" ++ hostEndpoint

/-! ## WaitForReady (lines 203-220) -/

/-- Modelled from the spec: the retry loop behind `pool.Retry` of dockertest.
It calls `op`; on an error it calls it again while `retries` further attempts
are left, and when none is it returns what `deadline` makes of the last error
(dockertest reports that the retry deadline is reached). -/
def retryLoop (deadline : GoError → GoError) (op : Trace → Option GoError × Trace) :
    Nat → Trace → Option GoError × Trace
  | 0, tr =>
    match op tr with
    | (none, tr) => (none, tr)
    | (some err, tr) => (some (deadline err), tr)
  | retries + 1, tr =>
    match op tr with
    | (none, tr) => (none, tr)
    | (some _, tr) => retryLoop deadline op retries tr

/-- Modelled from the spec: `pool.Retry` of dockertest, which is not part of
the repository.  It calls `op` until `op` returns nil or a budget of `budget`
attempts (at least one) is used up, and then returns what `deadline` makes of
the last error. -/
def Retry (deadline : GoError → GoError) (budget : Nat) (op : Trace → Option GoError × Trace)
    (tr : Trace) : Option GoError × Trace :=
  retryLoop deadline op (budget - 1) tr

/-- Lines 208-219: the function `WaitForReady` hands to `pool.Retry`. -/
def probe (E : Env) (url : String) (tr : Trace) : Option GoError × Trace :=
  let resp := E.httpGet tr url
  let tr := tr ++ [Event.httpGet url]
  match resp with
  | .transportError err => (some (.wrap "headscale is not ready: " err), tr)
  | .response StatusCode =>
    if StatusCode ≠ 200 then (some errHeadscaleStatusCodeNotOk, tr) else (none, tr)

/-- Lines 203-220; `budget` is the attempt budget of the pool. -/
def WaitForReady (E : Env) (budget : Nat) (t : HeadscaleInContainer ACL) (tr : Trace) :
    Option GoError × Trace :=
  let url := GetHealthEndpoint t
  let tr := tr ++ [Event.log ("waiting for headscale to be ready at " ++ url)]
  Retry E.retryDeadline budget (probe E url) tr

/-- Lines 222-237. -/
def CreateNamespace (E : Env) (t : HeadscaleInContainer ACL) (ns : String) (tr : Trace) :
    Option GoError × Trace :=
  let command := ["headscale", "namespaces", "create", ns]
  let r := E.ExecuteCommand tr t.container.ID command []
  let tr := tr ++ [Event.ExecuteCommand t.container.ID command []]
  match r.err with
  | some err => (some err, tr)
  | none => (none, tr)

/-- Lines 239-271.  `Unmarshal` is `json.Unmarshal` into a `v1.PreAuthKey`;
the result is the Go pair `(*v1.PreAuthKey, error)`. -/
def CreateAuthKey {PreAuthKey : Type} (E : Env) (Unmarshal : String → Except GoError PreAuthKey)
    (t : HeadscaleInContainer ACL) (ns : String) (tr : Trace) :
    (Option PreAuthKey × Option GoError) × Trace :=
  let command := ["headscale", "--namespace", ns, "preauthkeys", "create", "--reusable",
    "--expiration", "24h", "--output", "json"]
  let r := E.ExecuteCommand tr t.container.ID command []
  let tr := tr ++ [Event.ExecuteCommand t.container.ID command []]
  match r.err with
  | some err => ((none, some (.wrap "failed to execute create auth key command: " err)), tr)
  | none =>
    let tr := tr ++ [Event.jsonUnmarshal r.stdout]
    match Unmarshal r.stdout with
    | .error err => ((none, some (.wrap "failed to unmarshal auth key: " err)), tr)
    | .ok preAuthKey => ((some preAuthKey, none), tr)

/-- Lines 273-294.  `Unmarshal` is `json.Unmarshal` into a `[]*v1.Machine`
(`Machines`); the result is the Go pair `([]*v1.Machine, error)`. -/
def ListMachinesInNamespace {Machines : Type} (E : Env)
    (Unmarshal : String → Except GoError Machines)
    (t : HeadscaleInContainer ACL) (ns : String) (tr : Trace) :
    (Option Machines × Option GoError) × Trace :=
  let command := ["headscale", "--namespace", ns, "nodes", "list", "--output", "json"]
  let r := E.ExecuteCommand tr t.container.ID command []
  let tr := tr ++ [Event.ExecuteCommand t.container.ID command []]
  match r.err with
  | some err => ((none, some (.wrap "failed to execute list node command: " err)), tr)
  | none =>
    let tr := tr ++ [Event.jsonUnmarshal r.stdout]
    match Unmarshal r.stdout with
    | .error err => ((none, some (.wrap "failed to unmarshal nodes: " err)), tr)
    | .ok nodes => ((some nodes, none), tr)

/-! ## WriteFile (lines 296-348) -/

/-- The loop of `filepath.Split` on a Unix path, scanning from the end:
`lastSeparator path k` is one past the last index below `k` that holds the
separator, or `0` when there is none. -/
def lastSeparator (path : List Char) : Nat → Nat
  | 0 => 0
  | k + 1 => if path[k]? = some '/' then k + 1 else lastSeparator path k

/-- The Unix `filepath.Split`: `(path[:i+1], path[i+1:])` for the last
separator `i`.  The separator is one ASCII byte, so cutting the characters
and cutting the bytes of a UTF-8 string agree. -/
def Split (path : String) : String × String :=
  let i := lastSeparator path.data path.data.length
  (⟨path.data.take i⟩, ⟨path.data.drop i⟩)

/-- The calls of `archive/tar` and `io` that `WriteFile` makes, over the
state `Writer` of the `tar.Writer` and its buffer: `NewWriter` is
`tar.NewWriter(bytes.NewBuffer([]byte{}))`, `Copy w data` is
`io.Copy(w, bytes.NewReader(data))`, `Bytes` is `buf.Bytes()`. -/
structure TarLib where
  Writer : Type
  NewWriter : Writer
  WriteHeader : Writer → TarHeader → Option GoError × Writer
  Copy : Writer → List UInt8 → Option GoError × Writer
  Close : Writer → Option GoError × Writer
  Bytes : Writer → List UInt8

/-- Lines 296-348. -/
def WriteFile (L : TarLib) (E : Env) (t : HeadscaleInContainer ACL) (path : String)
    (data : List UInt8) (tr : Trace) : Option GoError × Trace :=
  let dirPath := (Split path).1
  let fileName := (Split path).2
  let tarWriter := L.NewWriter
  let header : TarHeader := { Name := fileName, Size := data.length }
  let r := L.WriteHeader tarWriter header
  let tr := tr ++ [Event.tarWriteHeader header]
  match r.1 with
  | some err => (some (.wrap "failed write file header to tar: " err), tr)
  | none =>
    let r := L.Copy r.2 data
    let tr := tr ++ [Event.ioCopy data]
    match r.1 with
    | some err => (some (.wrap "failed to copy file to tar: " err), tr)
    | none =>
      let r := L.Close r.2
      let tr := tr ++ [Event.tarClose]
      match r.1 with
      | some err => (some (.wrap "failed to close tar: " err), tr)
      | none =>
        let buf := L.Bytes r.2
        let tr := tr ++ [Event.logTar buf]
        let x := Execute E t ["mkdir", "-p", dirPath] tr
        match x.1.2 with
        | some err => (some (.wrap "failed to ensure directory: " err), x.2)
        | none =>
          let opts : UploadToContainerOptions :=
            { NoOverwriteDirNonDir := false, Path := dirPath, InputStream := buf }
          let err := E.UploadToContainer x.2 t.container.ID opts
          let tr := x.2 ++ [Event.UploadToContainer t.container.ID opts]
          match err with
          | some err => (some err, tr)
          | none => (none, tr)

/-! ## Options and New (lines 42-152) -/

/-- Line 42: `type Option = func(c *HeadscaleInContainer)`. -/
abbrev HsicOption (ACL : Type) := HeadscaleInContainer ACL → HeadscaleInContainer ACL

/-- Lines 44-48; `none` is a nil policy pointer. -/
def WithACLPolicy (acl : Option ACL) : HsicOption ACL :=
  fun hsic => { hsic with aclPolicy := acl }

/-- Lines 50-60; `configEnv` lists the entries of the map in the order the
`range` loop visits them. -/
def WithConfigEnv (configEnv : List (String × String)) : HsicOption ACL :=
  fun hsic =>
    let env := configEnv.foldl (fun env kv => env ++ [kv.1 ++ "=" ++ kv.2]) []
    { hsic with env := env }

/-- The two option constructors of the package, as data. -/
inductive OptionSpec (ACL : Type) where
  | withACLPolicy (acl : Option ACL)
  | withConfigEnv (configEnv : List (String × String))

/-- The option a constructor call stands for. -/
def OptionSpec.toOption : OptionSpec ACL → HsicOption ACL
  | .withACLPolicy acl => WithACLPolicy acl
  | .withConfigEnv configEnv => WithConfigEnv configEnv

/-- Lines 76-86: the instance once the options are applied, in their order. -/
def applyOptions (hostname : String) (port : Int) (network : Network)
    (opts : List (HsicOption ACL)) : HeadscaleInContainer ACL :=
  let hsic : HeadscaleInContainer ACL :=
    { hostname := hostname, port := port, container := Resource.zero, network := network,
      aclPolicy := none, env := [] }
  opts.foldl (fun hsic opt => opt hsic) hsic

/-- Lines 76-90: the instance after the options are applied and the policy
path is added to its environment. -/
def configure (hostname : String) (port : Int) (network : Network)
    (opts : List (HsicOption ACL)) : HeadscaleInContainer ACL :=
  let hsic := applyOptions hostname port network opts
  if hsic.aclPolicy.isSome then
    { hsic with env := hsic.env ++ ["HEADSCALE_ACL_POLICY_PATH=" ++ aclPolicyPath] }
  else hsic

/-- Lines 62-148.  `Marshal` is `json.Marshal` on the policy; the result is
the Go pair `(*HeadscaleInContainer, error)`. -/
def New (L : TarLib) (E : Env) (Marshal : ACL → Except GoError (List UInt8)) (port : Int)
    (network : Network) (opts : List (HsicOption ACL)) (tr : Trace) :
    (Option (HeadscaleInContainer ACL) × Option GoError) × Trace :=
  let hash := E.GenerateRandomStringDNSSafe tr hsicHashLength
  let tr := tr ++ [Event.GenerateRandomStringDNSSafe hsicHashLength]
  match hash with
  | .error err => ((none, some err), tr)
  | .ok hash =>
    let hostname := "hs-" ++ hash
    let portProto := fmtD port ++ "/tcp"
    let hsic := configure hostname port network opts
    let headscaleBuildOptions : BuildOptions :=
      { Dockerfile := "Dockerfile.debug", ContextDir := dockerContextPath }
    let runOptions : RunOptions :=
      { Name := hostname, ExposedPorts := [portProto], Networks := [network],
        Entrypoint := ["/bin/bash", "-c", "/bin/sleep 3 ; headscale serve"],
        Env := hsic.env }
    let err := E.RemoveContainerByName tr hostname
    let tr := tr ++ [Event.RemoveContainerByName hostname]
    match err with
    | some err => ((none, some err), tr)
    | none =>
      let hostConfig := [HostConfigOption.DockerRestartPolicy,
        HostConfigOption.DockerAllowLocalIPv6, HostConfigOption.DockerAllowNetworkAdministration]
      let container :=
        E.BuildAndRunWithBuildOptions tr headscaleBuildOptions runOptions hostConfig
      let tr := tr ++
        [Event.BuildAndRunWithBuildOptions headscaleBuildOptions runOptions hostConfig]
      match container with
      | .error err => ((none, some (.wrap "could not start headscale container: " err)), tr)
      | .ok container =>
        let tr := tr ++ [Event.log ("Created " ++ hostname ++ " container")]
        let hsic := { hsic with container := container }
        let w := WriteFile L E hsic "/etc/headscale/config.yaml" (bytesOf E.DefaultConfigYAML) tr
        match w.1 with
        | some err =>
          ((none, some (.wrap "failed to write headscale config to container: " err)), w.2)
        | none =>
          match hsic.aclPolicy with
          | none => ((some hsic, none), w.2)
          | some acl =>
            let tr := w.2 ++ [Event.jsonMarshal]
            match Marshal acl with
            | .error err =>
              ((none, some (.wrap "failed to marshal ACL Policy to JSON: " err)), tr)
            | .ok data =>
              let w := WriteFile L E hsic aclPolicyPath data tr
              match w.1 with
              | some err =>
                ((none, some (.wrap "failed to write ACL policy to container: " err)), w.2)
              | none => ((some hsic, none), w.2)

/-- Lines 150-152. -/
def Shutdown (E : Env) (t : HeadscaleInContainer ACL) (tr : Trace) : Option GoError × Trace :=
  (E.Purge tr t.container.ID, tr ++ [Event.Purge t.container.ID])

/-- The run options of the container starts a trace holds. -/
def runCalls : Trace → List RunOptions
  | [] => []
  | Event.BuildAndRunWithBuildOptions _ run _ :: tr => run :: runCalls tr
  | _ :: tr => runCalls tr

/-- The upload requests a trace holds. -/
def uploads : Trace → List UploadToContainerOptions
  | [] => []
  | Event.UploadToContainer _ opts :: tr => opts :: uploads tr
  | _ :: tr => uploads tr

/-! ## The tar writer and reader

`archive/tar` belongs to the Go standard library, not to the repository.
`archiveTar` below is its `Writer` as `WriteFile` drives it: the block
accounting of `Writer.Flush`, `Writer.WriteHeader`, `Writer.Write` and
`Writer.Close`, over a header layout `TarFormat` that stays a parameter, since
the library picks among the USTAR, PAX and GNU layouts and refuses a header
none of them can hold. -/

def blockSize : Nat := 512

/-- A block of zero bytes. -/
def zeroBlock : List UInt8 := List.replicate blockSize 0

/-- The zero bytes that complete the last block of a `size`-byte payload. -/
def blockPadding (size : Nat) : Nat := (blockSize - size % blockSize) % blockSize

def ErrHeader : GoError := .mk "archive/tar: invalid tar header"
def ErrWriteTooLong : GoError := .mk "archive/tar: write too long"
def ErrFieldTooLong : GoError := .mk "archive/tar: header field too long"
def ErrWriteAfterClose : GoError := .mk "archive/tar: write after close"
def ErrShortWrite : GoError := .mk "short write"
def ErrUnexpectedEOF : GoError := .mk "unexpected EOF"

/-- The header layout of the tar library: `formatHeader` gives the header
block(s) the writer emits for a header, or the error of a header it refuses;
`parseHeader` reads the header at the front of a stream and returns it with
the rest of the stream. -/
structure TarFormat where
  formatHeader : TarHeader → Except GoError (List UInt8)
  parseHeader : List UInt8 → Option (TarHeader × List UInt8)

/-- What makes a header layout usable: the block(s) written for a header fill
at least one block, do not start with a zero block (which would read as the
end marker), and are read back as that header. -/
structure TarFormat.Lawful (fmt : TarFormat) : Prop where
  block_length : ∀ hdr hb, fmt.formatHeader hdr = .ok hb → blockSize ≤ hb.length
  block_nonzero : ∀ hdr hb, fmt.formatHeader hdr = .ok hb → hb.take blockSize ≠ zeroBlock
  parse_format : ∀ hdr hb rest, fmt.formatHeader hdr = .ok hb →
    fmt.parseHeader (hb ++ rest) = some (hdr, rest)

/-- The state of a `tar.Writer` and the buffer under it: the bytes written,
the payload bytes the current entry still expects, the padding owed after it,
and the error the writer keeps. -/
structure TarWriter where
  buf : List UInt8
  nb : Nat
  pad : Nat
  err : Option GoError

namespace TarWriter

/-- The `tar.NewWriter` over an empty buffer. -/
def NewWriter : TarWriter := { buf := [], nb := 0, pad := 0, err := none }

/-- The `Writer.Flush`: refuses while payload bytes are missing, else writes
the padding owed. -/
def Flush (tw : TarWriter) : Option GoError × TarWriter :=
  match tw.err with
  | some err => (some err, tw)
  | none =>
    if tw.nb > 0 then
      (some (.mk ("archive/tar: missed writing " ++ toString tw.nb ++ " bytes")), tw)
    else (none, { tw with buf := tw.buf ++ List.replicate tw.pad 0, pad := 0 })

/-- The `Writer.WriteHeader`: flushes, writes the header block(s) and expects
`hdr.Size` payload bytes. -/
def WriteHeader (fmt : TarFormat) (tw : TarWriter) (hdr : TarHeader) :
    Option GoError × TarWriter :=
  match tw.Flush with
  | (some err, tw) => (some err, tw)
  | (none, tw) =>
    match fmt.formatHeader hdr with
    | .error err => (some err, { tw with err := some err })
    | .ok blk =>
      (none, { tw with buf := tw.buf ++ blk, nb := hdr.Size.toNat,
                       pad := blockPadding hdr.Size.toNat })

/-- The `Writer.Write`: writes at most the bytes the entry still expects and
reports `ErrWriteTooLong` when handed more.  Returns `(n, err)`. -/
def Write (tw : TarWriter) (b : List UInt8) : (Nat × Option GoError) × TarWriter :=
  match tw.err with
  | some err => ((0, some err), tw)
  | none =>
    let overwrite := decide (b.length > tw.nb)
    let b := if overwrite then b.take tw.nb else b
    let tw := { tw with buf := tw.buf ++ b, nb := tw.nb - b.length }
    ((b.length, if overwrite then some ErrWriteTooLong else none), tw)

/-- The `io.Copy(tw, bytes.NewReader(data))`: one `Write` of all of `data`,
none at all when `data` is empty; a short write without an error is
`io.ErrShortWrite`. -/
def Copy (tw : TarWriter) (data : List UInt8) : Option GoError × TarWriter :=
  if data.length = 0 then (none, tw)
  else
    let r := tw.Write data
    (if r.1.1 ≠ data.length ∧ r.1.2 = none then some ErrShortWrite else r.1.2, r.2)

/-- The `Writer.Close`: flushes and writes the trailer of two zero blocks. -/
def Close (tw : TarWriter) : Option GoError × TarWriter :=
  if tw.err = some ErrWriteAfterClose then (none, tw)
  else
    match tw.err with
    | some err => (some err, tw)
    | none =>
      match tw.Flush with
      | (some err, tw) => (some err, { tw with err := some ErrWriteAfterClose })
      | (none, tw) =>
        (none, { tw with buf := tw.buf ++ zeroBlock ++ zeroBlock,
                         err := some ErrWriteAfterClose })

end TarWriter

/-- The tar library of Go over the header layout `fmt`. -/
def archiveTar (fmt : TarFormat) : TarLib :=
  { Writer := TarWriter
    NewWriter := TarWriter.NewWriter
    WriteHeader := TarWriter.WriteHeader fmt
    Copy := TarWriter.Copy
    Close := TarWriter.Close
    Bytes := fun tw => tw.buf }

/-- Reading an archive with a `tar.Reader`: `Next` until `io.EOF`, each header
with the payload `io.ReadAll` returns for it.  `fuel` bounds the calls of
`Next`; running out of it is an error. -/
def readArchive (fmt : TarFormat) :
    Nat → List UInt8 → Except GoError (List (TarHeader × List UInt8))
  | 0, _ => .error (.mk "out of fuel")
  | fuel + 1, r =>
    if r.length = 0 then .ok []
    else if r.length < blockSize then .error ErrUnexpectedEOF
    else if r.take blockSize = zeroBlock then
      let r := r.drop blockSize
      if r.length = 0 then .ok []
      else if r.length < blockSize then .error ErrUnexpectedEOF
      else if r.take blockSize = zeroBlock then .ok []
      else .error ErrHeader
    else
      match fmt.parseHeader r with
      | none => .error ErrHeader
      | some (hdr, r) =>
        let size := hdr.Size.toNat
        if r.length < size + blockPadding size then .error ErrUnexpectedEOF
        else
          match readArchive fmt fuel (r.drop (size + blockPadding size)) with
          | .error err => .error err
          | .ok entries => .ok ((hdr, r.take size) :: entries)

/-! ## The USTAR header layout -/

/-- The octal digits of `x`, most significant first, in `digits` positions. -/
def octalDigits (digits x : Nat) : List UInt8 :=
  (List.range digits).reverse.map (fun i => (48 + x / 8 ^ i % 8).toUInt8)

/-- A numeric field of `width` bytes: octal with leading zeros, then a NUL. -/
def formatOctal (width x : Nat) : List UInt8 := octalDigits (width - 1) x ++ [0]

/-- A string field of `width` bytes: the bytes, then NULs. -/
def formatString (width : Nat) (s : List UInt8) : List UInt8 :=
  s ++ List.replicate (width - s.length) 0

/-- The value of the leading octal digits of a field. -/
def parseOctal (field : List UInt8) : Nat :=
  (field.takeWhile (fun b => decide (48 ≤ b.toNat ∧ b.toNat < 56))).foldl
    (fun acc b => acc * 8 + (b.toNat - 48)) 0

/-- The checksum of a header block: the sum of its bytes, the checksum field
(bytes 148 to 155) counted as eight spaces. -/
def checksum (blk : List UInt8) : Nat :=
  ((blk.take 148 ++ List.replicate 8 (32 : UInt8) ++ blk.drop 156).map (fun b => b.toNat)).sum

/-- The first 148 bytes of a USTAR header block: name, mode, uid, gid, size
and mtime, every field but name and size zero. -/
def ustarFront (name : List UInt8) (size : Nat) : List UInt8 :=
  formatString 100 name ++ formatOctal 8 0 ++ formatOctal 8 0 ++ formatOctal 8 0 ++
    formatOctal 12 size ++ formatOctal 12 0

/-- The last 356 bytes of a USTAR header block: type flag `0` (regular file),
link name, magic `ustar` NUL, version `00`, user and group name, device
numbers, name prefix, padding. -/
def ustarBack : List UInt8 :=
  [48] ++ List.replicate 100 0 ++ [117, 115, 116, 97, 114, 0] ++ [48, 48] ++
    List.replicate 32 0 ++ List.replicate 32 0 ++ formatOctal 8 0 ++ formatOctal 8 0 ++
    List.replicate 155 0 ++ List.replicate 12 0

/-- The 512-byte USTAR header block of a regular file: the front, the
checksum field (six octal digits, NUL, space), the back. -/
def ustarBlock (name : List UInt8) (size : Nat) : List UInt8 :=
  ustarFront name size ++
    (formatOctal 7 (checksum (ustarFront name size ++ List.replicate 8 0 ++ ustarBack)) ++ [32]) ++
    ustarBack

/-- Whether the USTAR layout holds a header: a name of at most 100 ASCII
characters, none of them NUL, and a size below `8 ^ 11`. -/
def fitsUSTAR (hdr : TarHeader) : Bool :=
  hdr.Name.data.all (fun c => decide (0 < c.toNat ∧ c.toNat < 128)) &&
    decide (hdr.Name.data.length ≤ 100) && decide (0 ≤ hdr.Size) && decide (hdr.Size < 8 ^ 11)

/-- The USTAR layout on its own, which is the layout `archive/tar` writes
whenever the header fits it.  A header that does not fit is refused here, with
`ErrHeader`: that is this layout alone, not `archive/tar`, whose treatment of
such a header is `tarLayout`. -/
def ustar : TarFormat :=
  { formatHeader := fun hdr =>
      if fitsUSTAR hdr then
        .ok (ustarBlock (hdr.Name.data.map (fun c => c.toNat.toUInt8)) hdr.Size.toNat)
      else .error ErrHeader
    parseHeader := fun r =>
      if r.length < blockSize then none
      else
        let blk := r.take blockSize
        if parseOctal ((blk.drop 148).take 8) ≠ checksum blk then none
        else
          let name := ((blk.take 100).takeWhile (fun b => b ≠ 0)).map (fun b => Char.ofNat b.toNat)
          some ({ Name := ⟨name⟩, Size := parseOctal ((blk.drop 124).take 12) },
            r.drop blockSize) }

/-- The layout `archive/tar` picks for a header of `WriteFile`.  A name that
holds a NUL byte, like a negative size, is one no layout can hold: the header
is refused with the library's `headerError`, here `refusal hdr`, whose text
(the reasons it lists) stays open.  A header that fits is written in USTAR,
and any other goes to the PAX layout, the parameter `pax`.  On reading, a
block whose type flag is `0` is a USTAR header, any other starts a PAX one. -/
def tarLayout (refusal : TarHeader → GoError) (pax : TarFormat) : TarFormat :=
  { formatHeader := fun hdr =>
      if hdr.Name.data.any (fun c => decide (c.toNat = 0)) || decide (hdr.Size < 0) then
        .error (refusal hdr)
      else if fitsUSTAR hdr then ustar.formatHeader hdr
      else pax.formatHeader hdr
    parseHeader := fun r =>
      if r[156]? = some 48 then ustar.parseHeader r else pax.parseHeader r }

/-! ## The call `Execute` makes, and sample collaborators -/

/-- What the underlying execution of `Execute E t command tr` returns: the
call of `dockertestutil.ExecuteCommand` on lines 159-163. -/
def executed (E : Env) (t : HeadscaleInContainer ACL) (command : List String) (tr : Trace) :
    ExecResult :=
  E.ExecuteCommand
    (tr ++ [Event.log ("command " ++ fmtV command)] ++
      [Event.log ("running command for " ++ t.hostname)])
    t.container.ID command []

/-- A started container. -/
def sampleContainer : Resource :=
  { ID := "4f1c", GetIPInNetwork := fun _ => "172.18.0.2", GetPort := fun _ => "49153" }

/-- An instance without a policy. -/
def sampleInstance : HeadscaleInContainer Unit :=
  { hostname := "hs-abc123", port := 8080, container := sampleContainer,
    network := { Name := "hsnet" }, aclPolicy := none, env := [] }

/-- A runtime in which every call succeeds and every command prints nothing. -/
def calmEnv : Env :=
  { GenerateRandomStringDNSSafe := fun _ _ => .ok "abc123"
    RemoveContainerByName := fun _ _ => none
    BuildAndRunWithBuildOptions := fun _ _ _ _ => .ok sampleContainer
    Purge := fun _ _ => none
    ExecuteCommand := fun _ _ _ _ => { stdout := "", stderr := "", err := none }
    UploadToContainer := fun _ _ _ => none
    httpGet := fun _ _ => .response 200
    retryDeadline := fun err => .wrap "reached retry deadline: " err
    DefaultConfigYAML := "log_level: trace" }

/-- A runtime whose commands all fail with exit status 1 after printing
`out` and `errText`. -/
def failingExecEnv (out errText : String) : Env :=
  { calmEnv with
    ExecuteCommand := fun _ _ _ _ =>
      { stdout := out, stderr := errText, err := some (.mk "command failed") } }

/-! ## The stages of `WriteFile`, named -/

/-- Lines 305-310: the header `WriteFile` writes. -/
def fileHeader (path : String) (data : List UInt8) : TarHeader :=
  { Name := (Split path).2, Size := data.length }

/-- Line 312: the answer of `tarWriter.WriteHeader(header)` and the writer after it. -/
def headerStage (L : TarLib) (path : String) (data : List UInt8) : Option GoError × L.Writer :=
  L.WriteHeader L.NewWriter (fileHeader path data)

/-- Line 317: the answer of `io.Copy(tarWriter, file)` and the writer after it. -/
def copyStage (L : TarLib) (path : String) (data : List UInt8) : Option GoError × L.Writer :=
  L.Copy (headerStage L path data).2 data

/-- Line 322: the answer of `tarWriter.Close()` and the writer after it. -/
def closeStage (L : TarLib) (path : String) (data : List UInt8) : Option GoError × L.Writer :=
  L.Close (copyStage L path data).2

/-- The archive: the bytes of the buffer once the writer is closed. -/
def archive (L : TarLib) (path : String) (data : List UInt8) : List UInt8 :=
  L.Bytes (closeStage L path data).2

/-- The trace once the archive is built and logged (line 327). -/
def archiveTrace (L : TarLib) (path : String) (data : List UInt8) (tr : Trace) : Trace :=
  tr ++ [Event.tarWriteHeader (fileHeader path data), Event.ioCopy data, Event.tarClose,
    Event.logTar (archive L path data)]

/-- Line 330: the command that ensures the directory. -/
def mkdirCommand (path : String) : List String := ["mkdir", "-p", (Split path).1]

/-- Line 330: the answer of the directory-ensuring `Execute`. -/
def mkdirStage (L : TarLib) (E : Env) (t : HeadscaleInContainer ACL) (path : String)
    (data : List UInt8) (tr : Trace) : (String × Option GoError) × Trace :=
  Execute E t (mkdirCommand path) (archiveTrace L path data tr)

/-- Lines 337-341: the upload request. -/
def uploadRequest (L : TarLib) (path : String) (data : List UInt8) : UploadToContainerOptions :=
  { NoOverwriteDirNonDir := false, Path := (Split path).1, InputStream := archive L path data }

/-- Lines 335-342: the answer of `UploadToContainer`. -/
def uploadStage (L : TarLib) (E : Env) (t : HeadscaleInContainer ACL) (path : String)
    (data : List UInt8) (tr : Trace) : Option GoError :=
  E.UploadToContainer (mkdirStage L E t path data tr).2 t.container.ID (uploadRequest L path data)

/-- A tar writer that answers `WriteHeader`, `Copy` and `Close` with the three
given values and keeps no bytes; it serves to reach each error path. -/
def stubTar (header copy close : Option GoError) : TarLib :=
  { Writer := Unit
    NewWriter := ()
    WriteHeader := fun _ _ => (header, ())
    Copy := fun _ _ => (copy, ())
    Close := fun _ => (close, ())
    Bytes := fun _ => [] }

/-- A runtime that refuses every upload with `cause`. -/
def failingUploadEnv (cause : GoError) : Env :=
  { calmEnv with UploadToContainer := fun _ _ _ => some cause }

/-- Whether an environment entry sets the variable `HEADSCALE_ACL_POLICY_PATH`. -/
def namesPolicyPath (entry : String) : Bool :=
  "HEADSCALE_ACL_POLICY_PATH=".data.isPrefixOf entry.data

/-- The map of the last `WithConfigEnv` among the options, empty without one. -/
def lastConfigEnv (specs : List (OptionSpec ACL)) : List (String × String) :=
  specs.foldl (fun acc spec =>
    match spec with
    | .withConfigEnv configEnv => configEnv
    | .withACLPolicy _ => acc) []

/-- The policy of the last `WithACLPolicy` among the options, nil without one. -/
def lastPolicy (specs : List (OptionSpec ACL)) : Option ACL :=
  specs.foldl (fun acc spec =>
    match spec with
    | .withACLPolicy acl => acl
    | .withConfigEnv _ => acc) none

/-- A stand-in for `json.Marshal` on a policy. -/
def sampleMarshal (_ : Unit) : Except GoError (List UInt8) := .ok [123, 125]

/-- A runtime whose commands succeed and print `out`. -/
def printingEnv (out : String) : Env :=
  { calmEnv with ExecuteCommand := fun _ _ _ _ => { stdout := out, stderr := "", err := none } }

/-- A stand-in for `json.Unmarshal`: the text `null` decodes to `0`, any
other text is a syntax error. -/
def sampleUnmarshal (input : String) : Except GoError Nat :=
  if input = "null" then .ok 0 else .error (.mk "invalid character")

/-- Whether two texts differ at a position both have. -/
def diverge : List Char → List Char → Bool
  | a :: as, b :: bs => (a != b) || diverge as bs
  | _, _ => false

/-! # Theorems -/

/-! ## Execute -/

theorem Execute_of_err (E : Env) (t : HeadscaleInContainer ACL) (command : List String)
    (tr : Trace) (err : GoError) (h : (executed E t command tr).err = some err) :
    Execute E t command tr =
      (("", some err),
        tr ++ [Event.log ("command " ++ fmtV command)] ++
          [Event.log ("running command for " ++ t.hostname)] ++
          [Event.ExecuteCommand t.container.ID command []] ++
          [Event.log ("command stderr: " ++ (executed E t command tr).stderr)]) := by
  unfold executed at h
  simp only [Execute, executed, h]

theorem Execute_of_ok (E : Env) (t : HeadscaleInContainer ACL) (command : List String)
    (tr : Trace) (h : (executed E t command tr).err = none) :
    (Execute E t command tr).1 = ((executed E t command tr).stdout, none) := by
  unfold executed at h
  simp only [Execute, executed, h]

/-- C2 (as stated, refuted): two failing executions that capture different
stderr texts, `boom` and `bang`, make `Execute` return the very same values,
the empty string and the error; the stderr text is not among them. -/
theorem Execute_return_omits_stderr :
    (executed (failingExecEnv "" "boom") sampleInstance ["ls"] []).stderr = "boom" ∧
    (executed (failingExecEnv "" "bang") sampleInstance ["ls"] []).stderr = "bang" ∧
    (Execute (failingExecEnv "" "boom") sampleInstance ["ls"] []).1 =
      ("", some (.mk "command failed")) ∧
    (Execute (failingExecEnv "" "bang") sampleInstance ["ls"] []).1 =
      ("", some (.mk "command failed")) := by
  refine ⟨rfl, rfl, rfl, rfl⟩

/-- C2 (amended): when the underlying execution fails with `err`, `Execute`
returns that same non-nil error with the empty string as stdout, and makes no
further call; the captured stderr is written to the log, as the last event,
and is no part of the result, which has the two components stdout and error
only. -/
theorem Execute_failure_returns_error_and_logs_stderr (E : Env) (t : HeadscaleInContainer ACL)
    (command : List String) (tr : Trace) (err : GoError)
    (h : (executed E t command tr).err = some err) :
    (Execute E t command tr).1 = ("", some err) ∧
    (Execute E t command tr).2 =
      tr ++ [Event.log ("command " ++ fmtV command),
        Event.log ("running command for " ++ t.hostname),
        Event.ExecuteCommand t.container.ID command [],
        Event.log ("command stderr: " ++ (executed E t command tr).stderr)] := by
  rw [Execute_of_err E t command tr err h]
  simp

/-- C2, at concrete inputs: the command `ls` failing after it printed `boom`
to stderr. -/
theorem Execute_failure_returns_error_and_logs_stderr_witness :
    (executed (failingExecEnv "" "boom") sampleInstance ["ls"] []).err =
      some (.mk "command failed") ∧
    (Execute (failingExecEnv "" "boom") sampleInstance ["ls"] []).1 =
      ("", some (.mk "command failed")) ∧
    (Execute (failingExecEnv "" "boom") sampleInstance ["ls"] []).2 =
      [] ++ [Event.log ("command " ++ fmtV ["ls"]),
        Event.log ("running command for " ++ sampleInstance.hostname),
        Event.ExecuteCommand sampleInstance.container.ID ["ls"] [],
        Event.log ("command stderr: " ++
          (executed (failingExecEnv "" "boom") sampleInstance ["ls"] []).stderr)] :=
  ⟨rfl, Execute_failure_returns_error_and_logs_stderr (failingExecEnv "" "boom")
    sampleInstance ["ls"] [] (.mk "command failed") rfl⟩

/-- C3 (as stated, refuted): a failing execution that captured the stdout
text `partial output` makes `Execute` return the empty string as stdout. -/
theorem Execute_stdout_lost_on_failure :
    (executed (failingExecEnv "partial output" "boom") sampleInstance ["ls"] []).stdout =
      "partial output" ∧
    (Execute (failingExecEnv "partial output" "boom") sampleInstance ["ls"] []).1.1 = "" ∧
    (Execute (failingExecEnv "partial output" "boom") sampleInstance ["ls"] []).1.1 ≠
      (executed (failingExecEnv "partial output" "boom") sampleInstance ["ls"] []).stdout := by
  refine ⟨rfl, rfl, ?_⟩
  decide

/-- C3 (amended): the stdout string `Execute` returns equals the stdout the
underlying execution captured when that execution succeeds, and is the empty
string when it fails. -/
theorem Execute_stdout (E : Env) (t : HeadscaleInContainer ACL) (command : List String)
    (tr : Trace) :
    (Execute E t command tr).1.1 =
      if (executed E t command tr).err = none then (executed E t command tr).stdout else "" := by
  cases h : (executed E t command tr).err with
  | none => simp [Execute_of_ok E t command tr h]
  | some err => simp [Execute_of_err E t command tr err h]

/-! ## WriteFile: the six ways it can end -/

theorem WriteFile_header_error (L : TarLib) (E : Env) (t : HeadscaleInContainer ACL)
    (path : String) (data : List UInt8) (tr : Trace) (err : GoError)
    (h : (headerStage L path data).1 = some err) :
    WriteFile L E t path data tr =
      (some (.wrap "failed write file header to tar: " err),
        tr ++ [Event.tarWriteHeader (fileHeader path data)]) := by
  unfold headerStage fileHeader at h
  simp only [WriteFile, fileHeader, h]

theorem WriteFile_copy_error (L : TarLib) (E : Env) (t : HeadscaleInContainer ACL)
    (path : String) (data : List UInt8) (tr : Trace) (err : GoError)
    (h1 : (headerStage L path data).1 = none) (h : (copyStage L path data).1 = some err) :
    WriteFile L E t path data tr =
      (some (.wrap "failed to copy file to tar: " err),
        tr ++ [Event.tarWriteHeader (fileHeader path data), Event.ioCopy data]) := by
  unfold copyStage at h
  unfold headerStage fileHeader at h1 h
  simp [WriteFile, fileHeader, h1, h]

theorem WriteFile_close_error (L : TarLib) (E : Env) (t : HeadscaleInContainer ACL)
    (path : String) (data : List UInt8) (tr : Trace) (err : GoError)
    (h1 : (headerStage L path data).1 = none) (h2 : (copyStage L path data).1 = none)
    (h : (closeStage L path data).1 = some err) :
    WriteFile L E t path data tr =
      (some (.wrap "failed to close tar: " err),
        tr ++ [Event.tarWriteHeader (fileHeader path data), Event.ioCopy data,
          Event.tarClose]) := by
  unfold closeStage at h
  unfold copyStage at h2 h
  unfold headerStage fileHeader at h1 h2 h
  simp [WriteFile, fileHeader, h1, h2, h]

theorem WriteFile_mkdir_error (L : TarLib) (E : Env) (t : HeadscaleInContainer ACL)
    (path : String) (data : List UInt8) (tr : Trace) (err : GoError)
    (h1 : (headerStage L path data).1 = none) (h2 : (copyStage L path data).1 = none)
    (h3 : (closeStage L path data).1 = none)
    (h : (mkdirStage L E t path data tr).1.2 = some err) :
    WriteFile L E t path data tr =
      (some (.wrap "failed to ensure directory: " err), (mkdirStage L E t path data tr).2) := by
  unfold mkdirStage archiveTrace archive mkdirCommand at h
  unfold closeStage at h3 h
  unfold copyStage at h2 h3 h
  unfold headerStage fileHeader at h1 h2 h3 h
  simp [WriteFile, fileHeader, mkdirStage, archiveTrace, archive, mkdirCommand, closeStage,
    copyStage, headerStage, h1, h2, h3, h]

theorem WriteFile_upload (L : TarLib) (E : Env) (t : HeadscaleInContainer ACL)
    (path : String) (data : List UInt8) (tr : Trace)
    (h1 : (headerStage L path data).1 = none) (h2 : (copyStage L path data).1 = none)
    (h3 : (closeStage L path data).1 = none)
    (h4 : (mkdirStage L E t path data tr).1.2 = none) :
    WriteFile L E t path data tr =
      (uploadStage L E t path data tr,
        (mkdirStage L E t path data tr).2 ++
          [Event.UploadToContainer t.container.ID (uploadRequest L path data)]) := by
  have h5 : ∀ x : Option GoError, x = uploadStage L E t path data tr →
      WriteFile L E t path data tr = (x, (mkdirStage L E t path data tr).2 ++
          [Event.UploadToContainer t.container.ID (uploadRequest L path data)]) := by
    intro x hx
    unfold uploadStage uploadRequest at hx
    unfold mkdirStage archiveTrace archive mkdirCommand at h4 hx
    unfold closeStage at h3 h4 hx
    unfold copyStage at h2 h3 h4 hx
    unfold headerStage fileHeader at h1 h2 h3 h4 hx
    cases x with
    | none =>
      simp [WriteFile, fileHeader, mkdirStage, archiveTrace, archive, mkdirCommand, closeStage,
        copyStage, headerStage, uploadRequest, h1, h2, h3, h4, ← hx]
    | some e =>
      simp [WriteFile, fileHeader, mkdirStage, archiveTrace, archive, mkdirCommand, closeStage,
        copyStage, headerStage, uploadRequest, h1, h2, h3, h4, ← hx]
  exact h5 _ rfl

/-! ## Error texts -/

theorem append_ne_of_diverge : ∀ (a b x y : List Char), diverge a b = true → a ++ x ≠ b ++ y
  | [], _, _, _, h => by simp [diverge] at h
  | _ :: _, [], _, _, h => by simp [diverge] at h
  | a :: as, b :: bs, x, y, h => by
    intro heq
    simp only [List.cons_append, List.cons.injEq] at heq
    simp only [diverge, Bool.or_eq_true, bne_iff_ne, ne_eq] at h
    rcases h with h | h
    · exact h heq.1
    · exact append_ne_of_diverge as bs x y h heq.2

theorem wrap_Error_ne (p q : String) (h : diverge p.data q.data = true) (c d : GoError) :
    (GoError.wrap p c).Error ≠ (GoError.wrap q d).Error := by
  intro heq
  have h2 := congrArg String.data heq
  simp only [GoError.Error, String.data_append] at h2
  exact append_ne_of_diverge _ _ _ _ h h2

/-! ## Execute: its error and its trace -/

theorem Execute_err (E : Env) (t : HeadscaleInContainer ACL) (command : List String)
    (tr : Trace) : (Execute E t command tr).1.2 = (executed E t command tr).err := by
  cases h : (executed E t command tr).err with
  | none => rw [Execute_of_ok E t command tr h]
  | some err => rw [Execute_of_err E t command tr err h]

theorem Execute_trace (E : Env) (t : HeadscaleInContainer ACL) (command : List String)
    (tr : Trace) :
    ∃ extra, (Execute E t command tr).2 =
        tr ++ [Event.log ("command " ++ fmtV command),
          Event.log ("running command for " ++ t.hostname),
          Event.ExecuteCommand t.container.ID command []] ++ extra ∧
      (extra = [] ∨ ∃ line, extra = [Event.log line]) := by
  cases h : (executed E t command tr).err with
  | some err =>
    refine ⟨[Event.log ("command stderr: " ++ (executed E t command tr).stderr)], ?_,
      Or.inr ⟨_, rfl⟩⟩
    rw [Execute_of_err E t command tr err h]
    simp
  | none =>
    unfold executed at h
    by_cases hs : (executed E t command tr).stdout = ""
    · refine ⟨[], ?_, Or.inl rfl⟩
      unfold executed at hs
      simp only [List.append_assoc, List.singleton_append] at h hs
      simp [Execute, h, hs]
    · refine ⟨[Event.log ("command stdout: " ++ (executed E t command tr).stdout)], ?_,
        Or.inr ⟨_, rfl⟩⟩
      unfold executed at hs
      simp only [List.append_assoc, List.singleton_append] at h hs
      simp [Execute, executed, h, hs]

/-! ## WriteFile: the events it adds -/

/-- The events `WriteFile` can add to a trace. -/
theorem WriteFile_trace (L : TarLib) (E : Env) (t : HeadscaleInContainer ACL)
    (path : String) (data : List UInt8) (tr : Trace) :
    ∃ added, (WriteFile L E t path data tr).2 = tr ++ added ∧
      ∀ e ∈ added,
        e = Event.tarWriteHeader (fileHeader path data) ∨ e = Event.ioCopy data ∨
        e = Event.tarClose ∨ e = Event.logTar (archive L path data) ∨
        (∃ line, e = Event.log line) ∨
        e = Event.ExecuteCommand t.container.ID (mkdirCommand path) [] ∨
        e = Event.UploadToContainer t.container.ID (uploadRequest L path data) := by
  obtain ⟨extra, hx, hextra⟩ := Execute_trace E t (mkdirCommand path) (archiveTrace L path data tr)
  have hlog : ∀ e ∈ extra, ∃ line, e = Event.log line := by
    intro e he
    rcases hextra with h | ⟨line, h⟩
    · simp [h] at he
    · exact ⟨line, by simpa [h] using he⟩
  cases h1 : (headerStage L path data).1 with
  | some err =>
    refine ⟨_, by rw [WriteFile_header_error L E t path data tr err h1], ?_⟩
    intro e he
    simp at he
    simp [he]
  | none =>
  cases h2 : (copyStage L path data).1 with
  | some err =>
    refine ⟨_, by rw [WriteFile_copy_error L E t path data tr err h1 h2], ?_⟩
    intro e he
    simp at he
    rcases he with he | he <;> simp [he]
  | none =>
  cases h3 : (closeStage L path data).1 with
  | some err =>
    refine ⟨_, by rw [WriteFile_close_error L E t path data tr err h1 h2 h3], ?_⟩
    intro e he
    simp at he
    rcases he with he | he | he <;> simp [he]
  | none =>
  cases h4 : (mkdirStage L E t path data tr).1.2 with
  | some err =>
    refine ⟨[Event.tarWriteHeader (fileHeader path data), Event.ioCopy data, Event.tarClose,
      Event.logTar (archive L path data)] ++
      [Event.log ("command " ++ fmtV (mkdirCommand path)),
          Event.log ("running command for " ++ t.hostname),
          Event.ExecuteCommand t.container.ID (mkdirCommand path) []] ++ extra, ?_, ?_⟩
    · rw [WriteFile_mkdir_error L E t path data tr err h1 h2 h3 h4]
      show (mkdirStage L E t path data tr).2 = _
      unfold mkdirStage
      rw [hx]
      simp [archiveTrace]
    · intro e he
      simp only [List.mem_append, List.mem_cons, List.mem_singleton, List.not_mem_nil,
        or_false] at he
      rcases he with ((he | he | he | he) | (he | he | he)) | he
      · simp [he]
      · simp [he]
      · simp [he]
      · simp [he]
      · simp [he]
      · simp [he]
      · simp [he]
      · obtain ⟨line, hl⟩ := hlog e he
        simp [hl]
  | none =>
    refine ⟨[Event.tarWriteHeader (fileHeader path data), Event.ioCopy data, Event.tarClose,
      Event.logTar (archive L path data)] ++
      [Event.log ("command " ++ fmtV (mkdirCommand path)),
          Event.log ("running command for " ++ t.hostname),
          Event.ExecuteCommand t.container.ID (mkdirCommand path) []] ++ extra ++
      [Event.UploadToContainer t.container.ID (uploadRequest L path data)], ?_, ?_⟩
    · rw [WriteFile_upload L E t path data tr h1 h2 h3 h4]
      show (mkdirStage L E t path data tr).2 ++ _ = _
      unfold mkdirStage
      rw [hx]
      simp [archiveTrace]
    · intro e he
      simp only [List.mem_append, List.mem_cons, List.mem_singleton, List.not_mem_nil,
        or_false] at he
      rcases he with (((he | he | he | he) | (he | he | he)) | he) | he
      · simp [he]
      · simp [he]
      · simp [he]
      · simp [he]
      · simp [he]
      · simp [he]
      · simp [he]
      · obtain ⟨line, hl⟩ := hlog e he
        simp [hl]
      · simp [he]

theorem mem_uploads : ∀ (tr : Trace) (o : UploadToContainerOptions),
    o ∈ uploads tr → ∃ id, Event.UploadToContainer id o ∈ tr
  | [], o, h => by simp [uploads] at h
  | e :: tr, o, h => by
    cases e with
    | UploadToContainer id opts =>
      simp only [uploads, List.mem_cons] at h
      rcases h with h | h
      · exact ⟨id, by simp [h]⟩
      · obtain ⟨i, hi⟩ := mem_uploads tr o h
        exact ⟨i, List.mem_cons_of_mem _ hi⟩
    | _ =>
      simp only [uploads] at h
      obtain ⟨i, hi⟩ := mem_uploads tr o h
      exact ⟨i, List.mem_cons_of_mem _ hi⟩

theorem uploads_append : ∀ (a b : Trace), uploads (a ++ b) = uploads a ++ uploads b
  | [], b => by simp [uploads]
  | e :: a, b => by
    cases e <;> simp [uploads, uploads_append a b]

/-! ## Split -/

theorem lastSeparator_le (p : List Char) : ∀ k, lastSeparator p k ≤ k
  | 0 => by simp [lastSeparator]
  | k + 1 => by
    unfold lastSeparator
    split
    · exact le_refl _
    · exact Nat.le_succ_of_le (lastSeparator_le p k)

theorem lastSeparator_none_after (p : List Char) :
    ∀ k j, lastSeparator p k ≤ j → j < k → p[j]? ≠ some '/'
  | 0, j, _, h => by omega
  | k + 1, j, h1, h2 => by
    unfold lastSeparator at h1
    split at h1
    · omega
    · rename_i hk
      by_cases hj : j = k
      · rw [hj]; exact hk
      · exact lastSeparator_none_after p k j h1 (by omega)

theorem lastSeparator_at (p : List Char) :
    ∀ k, lastSeparator p k = 0 ∨ p[lastSeparator p k - 1]? = some '/'
  | 0 => by simp [lastSeparator]
  | k + 1 => by
    unfold lastSeparator
    split
    · rename_i hk
      right
      simpa using hk
    · exact lastSeparator_at p k

theorem Split_append (path : String) : (Split path).1 ++ (Split path).2 = path := by
  apply String.ext
  simp [Split, String.data_append]

theorem Split_file_no_separator (path : String) : '/' ∉ (Split path).2.data := by
  intro h
  simp only [Split] at h
  obtain ⟨j, hj⟩ := List.mem_iff_getElem?.mp h
  rw [List.getElem?_drop] at hj
  have hlt : lastSeparator path.data path.data.length + j < path.data.length := by
    by_contra hge
    rw [List.getElem?_eq_none (by omega)] at hj
    exact Option.noConfusion hj
  exact lastSeparator_none_after path.data path.data.length _ (Nat.le_add_right _ _) hlt hj

theorem Split_dir_ends_in_separator (path : String) :
    (Split path).1 = "" ∨ (Split path).1.data.getLast? = some '/' := by
  rcases lastSeparator_at path.data path.data.length with h | h
  · left
    apply String.ext
    show List.take (lastSeparator path.data path.data.length) path.data = []
    rw [h]
    rfl
  · by_cases h0 : lastSeparator path.data path.data.length = 0
    · left
      apply String.ext
      show List.take (lastSeparator path.data path.data.length) path.data = []
      rw [h0]
      rfl
    · right
      have hle := lastSeparator_le path.data path.data.length
      simp only [Split]
      rw [List.getLast?_eq_getElem?, List.length_take, Nat.min_eq_left hle,
        List.getElem?_take_of_lt (by omega)]
      exact h

theorem Split_of_trailing_separator (path : String) (h : path.data.getLast? = some '/') :
    (Split path).2 = "" := by
  apply String.ext
  simp only [Split]
  rw [List.getLast?_eq_getElem?] at h
  cases hl : path.data.length with
  | zero =>
    rw [List.length_eq_zero.mp hl]
    rfl
  | succ k =>
    rw [hl] at h
    simp only [Nat.add_sub_cancel] at h
    have : lastSeparator path.data (k + 1) = k + 1 := by
      simp [lastSeparator, h]
    rw [this, ← hl]
    simp

/-! ## WriteFile: the claims about its stages -/

theorem mkdirStage_trace_of_err (L : TarLib) (E : Env) (t : HeadscaleInContainer ACL)
    (path : String) (data : List UInt8) (tr : Trace) (err : GoError)
    (h : (mkdirStage L E t path data tr).1.2 = some err) :
    (mkdirStage L E t path data tr).2 =
      archiveTrace L path data tr ++
        [Event.log ("command " ++ fmtV (mkdirCommand path)),
          Event.log ("running command for " ++ t.hostname),
          Event.ExecuteCommand t.container.ID (mkdirCommand path) [],
          Event.log ("command stderr: " ++
            (executed E t (mkdirCommand path) (archiveTrace L path data tr)).stderr)] := by
  unfold mkdirStage at h ⊢
  rw [Execute_err] at h
  rw [Execute_of_err E t _ _ err h]
  simp

/-- C4 (as stated, refuted): with the archive built and the directory ensured,
an upload that fails with the cause `no such container` makes `WriteFile`
return that cause itself; no message naming the upload stage is wrapped
around it. -/
theorem WriteFile_upload_error_is_bare :
    uploadStage (archiveTar ustar) (failingUploadEnv (.mk "no such container")) sampleInstance
      "/etc/headscale/config.yaml" [104, 105] [] = some (.mk "no such container") ∧
    (WriteFile (archiveTar ustar) (failingUploadEnv (.mk "no such container")) sampleInstance
      "/etc/headscale/config.yaml" [104, 105] []).1 = some (.mk "no such container") ∧
    ¬ ∃ pre, (WriteFile (archiveTar ustar) (failingUploadEnv (.mk "no such container"))
      sampleInstance "/etc/headscale/config.yaml" [104, 105] []).1 =
        some (.wrap pre (.mk "no such container")) := by
  have h : (WriteFile (archiveTar ustar) (failingUploadEnv (.mk "no such container"))
      sampleInstance "/etc/headscale/config.yaml" [104, 105] []).1 =
        some (.mk "no such container") := by
    rw [WriteFile_upload _ _ _ _ _ _ (by decide) (by decide) (by decide) (by decide)]
    rfl
  refine ⟨rfl, h, ?_⟩
  rintro ⟨pre, hp⟩
  rw [h] at hp
  simp at hp

/-- C4 (amended): whichever stage of `WriteFile` fails, `WriteFile` stops
there, the trace showing no call of a later stage.  A failure of the header
write, the payload copy, the close or the directory-ensuring `mkdir -p` is
returned wrapped under the message of its stage, and the texts of those four
errors differ pairwise whatever the causes are.  A failure of the upload is
returned as the cause itself, with no message added. -/
theorem WriteFile_stage_failure (L : TarLib) (E : Env) (t : HeadscaleInContainer ACL)
    (path : String) (data : List UInt8) (tr : Trace) :
    (∀ err, (headerStage L path data).1 = some err →
      WriteFile L E t path data tr =
        (some (.wrap "failed write file header to tar: " err),
          tr ++ [Event.tarWriteHeader (fileHeader path data)])) ∧
    (∀ err, (headerStage L path data).1 = none → (copyStage L path data).1 = some err →
      WriteFile L E t path data tr =
        (some (.wrap "failed to copy file to tar: " err),
          tr ++ [Event.tarWriteHeader (fileHeader path data), Event.ioCopy data])) ∧
    (∀ err, (headerStage L path data).1 = none → (copyStage L path data).1 = none →
      (closeStage L path data).1 = some err →
      WriteFile L E t path data tr =
        (some (.wrap "failed to close tar: " err),
          tr ++ [Event.tarWriteHeader (fileHeader path data), Event.ioCopy data,
            Event.tarClose])) ∧
    (∀ err, (headerStage L path data).1 = none → (copyStage L path data).1 = none →
      (closeStage L path data).1 = none → (mkdirStage L E t path data tr).1.2 = some err →
      WriteFile L E t path data tr =
        (some (.wrap "failed to ensure directory: " err),
          tr ++ [Event.tarWriteHeader (fileHeader path data), Event.ioCopy data,
            Event.tarClose, Event.logTar (archive L path data),
            Event.log ("command " ++ fmtV (mkdirCommand path)),
            Event.log ("running command for " ++ t.hostname),
            Event.ExecuteCommand t.container.ID (mkdirCommand path) [],
            Event.log ("command stderr: " ++
              (executed E t (mkdirCommand path) (archiveTrace L path data tr)).stderr)])) ∧
    (∀ err, (headerStage L path data).1 = none → (copyStage L path data).1 = none →
      (closeStage L path data).1 = none → (mkdirStage L E t path data tr).1.2 = none →
      uploadStage L E t path data tr = some err →
      WriteFile L E t path data tr =
        (some err, (mkdirStage L E t path data tr).2 ++
          [Event.UploadToContainer t.container.ID (uploadRequest L path data)])) ∧
    (∀ p ∈ ["failed write file header to tar: ", "failed to copy file to tar: ",
        "failed to close tar: ", "failed to ensure directory: "],
      ∀ q ∈ ["failed write file header to tar: ", "failed to copy file to tar: ",
        "failed to close tar: ", "failed to ensure directory: "],
      p ≠ q → ∀ c d : GoError, (GoError.wrap p c).Error ≠ (GoError.wrap q d).Error) := by
  refine ⟨fun err h => WriteFile_header_error L E t path data tr err h,
    fun err h1 h => WriteFile_copy_error L E t path data tr err h1 h,
    fun err h1 h2 h => WriteFile_close_error L E t path data tr err h1 h2 h, ?_, ?_, ?_⟩
  · intro err h1 h2 h3 h
    rw [WriteFile_mkdir_error L E t path data tr err h1 h2 h3 h,
      mkdirStage_trace_of_err L E t path data tr err h]
    simp [archiveTrace]
  · intro err h1 h2 h3 h4 h
    rw [WriteFile_upload L E t path data tr h1 h2 h3 h4, h]
  · intro p hp q hq hpq c d
    apply wrap_Error_ne
    simp only [List.mem_cons, List.mem_singleton, List.not_mem_nil, or_false] at hp hq
    rcases hp with rfl | rfl | rfl | rfl <;> rcases hq with rfl | rfl | rfl | rfl <;>
      first
        | exact absurd rfl hpq
        | decide

/-- C4, at concrete inputs: each of the five stages failing in turn. -/
theorem WriteFile_stage_failure_witness :
    (WriteFile (stubTar (some ErrHeader) none none) calmEnv sampleInstance "/etc/a" [1] []).1 =
      some (.wrap "failed write file header to tar: " ErrHeader) ∧
    (WriteFile (stubTar none (some ErrWriteTooLong) none) calmEnv sampleInstance "/etc/a" [1] []).1 =
      some (.wrap "failed to copy file to tar: " ErrWriteTooLong) ∧
    (WriteFile (stubTar none none (some ErrShortWrite)) calmEnv sampleInstance "/etc/a" [1] []).1 =
      some (.wrap "failed to close tar: " ErrShortWrite) ∧
    (WriteFile (archiveTar ustar) (failingExecEnv "" "mkdir: cannot create directory")
      sampleInstance "/etc/a" [1] []).1 =
      some (.wrap "failed to ensure directory: " (.mk "command failed")) ∧
    (WriteFile (archiveTar ustar) (failingUploadEnv (.mk "no such container")) sampleInstance
      "/etc/a" [1] []).1 = some (.mk "no such container") :=
  ⟨by rw [(WriteFile_stage_failure (stubTar (some ErrHeader) none none) calmEnv sampleInstance
        "/etc/a" [1] []).1 ErrHeader rfl],
   by rw [(WriteFile_stage_failure (stubTar none (some ErrWriteTooLong) none) calmEnv
        sampleInstance "/etc/a" [1] []).2.1 ErrWriteTooLong rfl rfl],
   by rw [(WriteFile_stage_failure (stubTar none none (some ErrShortWrite)) calmEnv
        sampleInstance "/etc/a" [1] []).2.2.1 ErrShortWrite rfl rfl rfl],
   by rw [(WriteFile_stage_failure (archiveTar ustar)
        (failingExecEnv "" "mkdir: cannot create directory") sampleInstance "/etc/a" [1]
        []).2.2.2.1 (.mk "command failed") (by decide) (by decide) (by decide) (by decide)],
   by rw [(WriteFile_stage_failure (archiveTar ustar) (failingUploadEnv (.mk "no such container"))
        sampleInstance "/etc/a" [1] []).2.2.2.2.1 (.mk "no such container")
        (by decide) (by decide) (by decide) (by decide) rfl]⟩

theorem WriteFile_trace_of_success (L : TarLib) (E : Env) (t : HeadscaleInContainer ACL)
    (path : String) (data : List UInt8) (tr : Trace)
    (h1 : (headerStage L path data).1 = none) (h2 : (copyStage L path data).1 = none)
    (h3 : (closeStage L path data).1 = none)
    (h4 : (mkdirStage L E t path data tr).1.2 = none) :
    ∃ extra, (extra = [] ∨ ∃ line, extra = [Event.log line]) ∧
      (WriteFile L E t path data tr).2 =
        tr ++ ([Event.tarWriteHeader (fileHeader path data), Event.ioCopy data, Event.tarClose,
          Event.logTar (archive L path data),
          Event.log ("command " ++ fmtV (mkdirCommand path)),
          Event.log ("running command for " ++ t.hostname),
          Event.ExecuteCommand t.container.ID (mkdirCommand path) []] ++ extra ++
          [Event.UploadToContainer t.container.ID (uploadRequest L path data)]) := by
  obtain ⟨extra, hx, hextra⟩ := Execute_trace E t (mkdirCommand path) (archiveTrace L path data tr)
  refine ⟨extra, hextra, ?_⟩
  rw [WriteFile_upload L E t path data tr h1 h2 h3 h4]
  show (mkdirStage L E t path data tr).2 ++ _ = _
  unfold mkdirStage
  rw [hx]
  simp [archiveTrace]

/-- C5 (as stated, refuted): the one upload request of a `WriteFile` that
succeeds has `NoOverwriteDirNonDir` set to `false`, so the option that forbids
replacing a directory by the uploaded file is not enabled. -/
theorem WriteFile_upload_option_is_off :
    (uploads (WriteFile (archiveTar ustar) calmEnv sampleInstance "/etc/headscale/config.yaml"
      [104, 105] []).2).map (fun o => (o.Path, o.NoOverwriteDirNonDir)) =
      [("/etc/headscale/", false)] := by
  obtain ⟨extra, hextra, h⟩ := WriteFile_trace_of_success (archiveTar ustar) calmEnv
    sampleInstance "/etc/headscale/config.yaml" [104, 105] []
    (by decide) (by decide) (by decide) (by decide)
  rw [h]
  rcases hextra with rfl | ⟨line, rfl⟩
  · simp only [List.nil_append, List.append_nil, List.cons_append, uploads, List.map_cons,
      List.map_nil, uploadRequest]
    decide
  · simp only [List.nil_append, List.append_nil, List.cons_append, uploads, List.map_cons,
      List.map_nil, uploadRequest]
    decide

/-- C5 (amended): every upload request `WriteFile` issues is the request of
lines 337-341: its destination is the directory part of the path, its stream
is the archive, and its `NoOverwriteDirNonDir` option is `false`, so the
runtime is not asked to refuse the replacement of a same-named directory; when
the earlier stages succeed exactly one such request is issued. -/
theorem WriteFile_upload_request (L : TarLib) (E : Env) (t : HeadscaleInContainer ACL)
    (path : String) (data : List UInt8) (tr : Trace) :
    uploadRequest L path data =
      { NoOverwriteDirNonDir := false, Path := (Split path).1,
        InputStream := archive L path data } ∧
    ∃ added, (WriteFile L E t path data tr).2 = tr ++ added ∧
      (∀ o ∈ uploads added, o = uploadRequest L path data) ∧
      ((headerStage L path data).1 = none → (copyStage L path data).1 = none →
        (closeStage L path data).1 = none → (mkdirStage L E t path data tr).1.2 = none →
        uploads added = [uploadRequest L path data]) := by
  refine ⟨rfl, ?_⟩
  obtain ⟨added, hadd, hev⟩ := WriteFile_trace L E t path data tr
  refine ⟨added, hadd, ?_, ?_⟩
  · intro o ho
    obtain ⟨id, hid⟩ := mem_uploads added o ho
    rcases hev _ hid with h | h | h | h | ⟨line, h⟩ | h | h
    · exact Event.noConfusion h
    · exact Event.noConfusion h
    · exact Event.noConfusion h
    · exact Event.noConfusion h
    · exact Event.noConfusion h
    · exact Event.noConfusion h
    · injection h
  · intro h1 h2 h3 h4
    obtain ⟨extra, hextra, h⟩ := WriteFile_trace_of_success L E t path data tr h1 h2 h3 h4
    rw [hadd] at h
    rw [List.append_cancel_left h]
    rcases hextra with rfl | ⟨line, rfl⟩ <;> simp [uploads]

/-- C10: `WriteFile` splits the path after its last separator: the two parts
concatenate to the path, the file name holds no separator, and the directory
part is empty or ends in the separator, so a path that ends in the separator
has the empty file name.  Every header `WriteFile` writes names the file part,
every command it runs is `mkdir -p` on the directory part, and every upload
goes to that same directory part; when all stages succeed the header write,
the `mkdir -p` and the upload all take place. -/
theorem WriteFile_splits_path (L : TarLib) (E : Env) (t : HeadscaleInContainer ACL)
    (path : String) (data : List UInt8) (tr : Trace) :
    (Split path).1 ++ (Split path).2 = path ∧
    '/' ∉ (Split path).2.data ∧
    ((Split path).1 = "" ∨ (Split path).1.data.getLast? = some '/') ∧
    (path.data.getLast? = some '/' → (Split path).2 = "") ∧
    ∃ added, (WriteFile L E t path data tr).2 = tr ++ added ∧
      (∀ hdr, Event.tarWriteHeader hdr ∈ added → hdr.Name = (Split path).2) ∧
      (∀ id command env, Event.ExecuteCommand id command env ∈ added →
        command = ["mkdir", "-p", (Split path).1]) ∧
      (∀ id opts, Event.UploadToContainer id opts ∈ added → opts.Path = (Split path).1) ∧
      ((headerStage L path data).1 = none → (copyStage L path data).1 = none →
        (closeStage L path data).1 = none → (mkdirStage L E t path data tr).1.2 = none →
        Event.tarWriteHeader { Name := (Split path).2, Size := data.length } ∈ added ∧
        Event.ExecuteCommand t.container.ID ["mkdir", "-p", (Split path).1] [] ∈ added ∧
        Event.UploadToContainer t.container.ID
          { NoOverwriteDirNonDir := false, Path := (Split path).1,
            InputStream := archive L path data } ∈ added) := by
  refine ⟨Split_append path, Split_file_no_separator path, Split_dir_ends_in_separator path,
    Split_of_trailing_separator path, ?_⟩
  obtain ⟨added, hadd, hev⟩ := WriteFile_trace L E t path data tr
  refine ⟨added, hadd, ?_, ?_, ?_, ?_⟩
  · intro hdr hmem
    rcases hev _ hmem with h | h | h | h | ⟨line, h⟩ | h | h
    · cases h
      rfl
    · exact Event.noConfusion h
    · exact Event.noConfusion h
    · exact Event.noConfusion h
    · exact Event.noConfusion h
    · exact Event.noConfusion h
    · exact Event.noConfusion h
  · intro id command env hmem
    rcases hev _ hmem with h | h | h | h | ⟨line, h⟩ | h | h
    · exact Event.noConfusion h
    · exact Event.noConfusion h
    · exact Event.noConfusion h
    · exact Event.noConfusion h
    · exact Event.noConfusion h
    · cases h
      rfl
    · exact Event.noConfusion h
  · intro id opts hmem
    rcases hev _ hmem with h | h | h | h | ⟨line, h⟩ | h | h
    · exact Event.noConfusion h
    · exact Event.noConfusion h
    · exact Event.noConfusion h
    · exact Event.noConfusion h
    · exact Event.noConfusion h
    · exact Event.noConfusion h
    · cases h
      rfl
  · intro h1 h2 h3 h4
    obtain ⟨extra, _, h⟩ := WriteFile_trace_of_success L E t path data tr h1 h2 h3 h4
    rw [hadd] at h
    rw [List.append_cancel_left h]
    refine ⟨?_, ?_, ?_⟩
    · simp [fileHeader]
    · simp [mkdirCommand]
    · simp [uploadRequest]

/-- C10, at a concrete input: a `WriteFile` of `/etc/headscale/acl.hujson`
that succeeds writes the header `acl.hujson`, ensures `/etc/headscale/` and
uploads to `/etc/headscale/`. -/
theorem WriteFile_splits_path_witness :
    Split "/etc/headscale/acl.hujson" = ("/etc/headscale/", "acl.hujson") ∧
    Split "/etc/headscale/" = ("/etc/headscale/", "") ∧
    ∃ added, (WriteFile (archiveTar ustar) calmEnv sampleInstance "/etc/headscale/acl.hujson"
        [1, 2, 3] []).2 = [] ++ added ∧
      Event.tarWriteHeader { Name := "acl.hujson", Size := 3 } ∈ added ∧
      Event.ExecuteCommand "4f1c" ["mkdir", "-p", "/etc/headscale/"] [] ∈ added ∧
      Event.UploadToContainer "4f1c"
        { NoOverwriteDirNonDir := false, Path := "/etc/headscale/",
          InputStream := archive (archiveTar ustar) "/etc/headscale/acl.hujson" [1, 2, 3] } ∈
        added := by
  have hs : Split "/etc/headscale/acl.hujson" = ("/etc/headscale/", "acl.hujson") := by decide
  refine ⟨hs, by decide, ?_⟩
  obtain ⟨_, _, _, _, added, hadd, _, _, _, hall⟩ :=
    WriteFile_splits_path (archiveTar ustar) calmEnv sampleInstance "/etc/headscale/acl.hujson"
      [1, 2, 3] []
  have h := hall (by decide) (by decide) (by decide) (by decide)
  rw [hs] at h
  exact ⟨added, hadd, h⟩

/-! ## Endpoints and WaitForReady -/

theorem probe_trace (E : Env) (url : String) (tr : Trace) :
    (probe E url tr).2 = tr ++ [Event.httpGet url] := by
  unfold probe
  cases E.httpGet tr url with
  | transportError cause => rfl
  | response code =>
    by_cases h : code = 200 <;> simp [h]

theorem retryLoop_probe_trace (E : Env) (url : String) :
    ∀ retries tr, ∃ k, 0 < k ∧ k ≤ retries + 1 ∧
      (retryLoop E.retryDeadline (probe E url) retries tr).2 =
        tr ++ List.replicate k (Event.httpGet url)
  | 0, tr => by
    have hp := probe_trace E url tr
    refine ⟨1, by omega, by omega, ?_⟩
    cases h : probe E url tr with
    | mk e tr1 =>
      rw [h] at hp
      simp only at hp
      cases e <;> simp [retryLoop, h, hp]
  | retries + 1, tr => by
    have hp := probe_trace E url tr
    cases h : probe E url tr with
    | mk e tr1 =>
      rw [h] at hp
      simp only at hp
      cases e with
      | none =>
        refine ⟨1, by omega, by omega, ?_⟩
        simp [retryLoop, h, hp]
      | some err =>
        subst hp
        obtain ⟨k, hk0, hk, ht⟩ := retryLoop_probe_trace E url retries (tr ++ [Event.httpGet url])
        refine ⟨k + 1, by omega, by omega, ?_⟩
        simp only [retryLoop, h, ht, List.replicate_succ, List.append_assoc,
          List.singleton_append]

/-- C8: the health endpoint is `http://`, the in-network IP, a colon, the
port in decimal and `/health`; the base endpoint is the same without
`/health`, so the first is the second followed by `/health`; the decimal
form of the port is its digits in base ten, after a minus sign when it is
negative; and `WaitForReady` sends its probes, at least one, to the health
endpoint and to no other URL. -/
theorem endpoints_and_probes (E : Env) (budget : Nat) (t : HeadscaleInContainer ACL)
    (tr : Trace) :
    GetHealthEndpoint t =
      "http://" ++ t.container.GetIPInNetwork t.network ++ ":" ++ fmtD t.port ++ "/health" ∧
    GetEndpoint t = "http://" ++ t.container.GetIPInNetwork t.network ++ ":" ++ fmtD t.port ∧
    GetHealthEndpoint t = GetEndpoint t ++ "/health" ∧
    (∀ n : Nat, fmtD (Int.ofNat n) = (Nat.toDigits 10 n).asString) ∧
    (∀ n : Nat, fmtD (Int.negSucc n) = "-" ++ (Nat.toDigits 10 (n + 1)).asString) ∧
    ∃ k, 0 < k ∧ (WaitForReady E budget t tr).2 =
      tr ++ [Event.log ("waiting for headscale to be ready at " ++
          ("http://" ++ t.container.GetIPInNetwork t.network ++ ":" ++ fmtD t.port ++ "/health"))] ++
        List.replicate k (Event.httpGet
          ("http://" ++ t.container.GetIPInNetwork t.network ++ ":" ++ fmtD t.port ++ "/health")) := by
  have h1 : GetHealthEndpoint t =
      "http://" ++ t.container.GetIPInNetwork t.network ++ ":" ++ fmtD t.port ++ "/health" := by
    simp [GetHealthEndpoint, GetIP, String.append_assoc]
  refine ⟨h1, ?_, ?_, fun n => rfl, fun n => rfl, ?_⟩
  · simp [GetEndpoint, GetIP, String.append_assoc]
  · simp [GetHealthEndpoint, GetEndpoint, GetIP, String.append_assoc]
  · obtain ⟨k, hk0, _, hk⟩ := retryLoop_probe_trace E (GetHealthEndpoint t) (budget - 1)
      (tr ++ [Event.log ("waiting for headscale to be ready at " ++ GetHealthEndpoint t)])
    refine ⟨k, hk0, ?_⟩
    rw [← h1]
    exact hk

/-- C9: for `CreateAuthKey` and for `ListMachinesInNamespace`, on every
namespace: when the command fails the result is nil with the cause wrapped
under the execution message, and the trace ends at the command, no decoding
having been tried; when the command succeeds and its stdout does not decode,
the result is nil with the decoder's error wrapped under the parse message;
when both succeed the decoded value is returned with a nil error.  The text
of an execution failure differs from the text of a parse failure whatever the
causes are. -/
theorem admin_command_errors {PreAuthKey Machines : Type} (E : Env)
    (UnmarshalKey : String → Except GoError PreAuthKey)
    (UnmarshalNodes : String → Except GoError Machines)
    (t : HeadscaleInContainer ACL) (ns : String) (tr : Trace) :
    (∀ err, (E.ExecuteCommand tr t.container.ID
        ["headscale", "--namespace", ns, "preauthkeys", "create", "--reusable",
          "--expiration", "24h", "--output", "json"] []).err = some err →
      CreateAuthKey E UnmarshalKey t ns tr =
        ((none, some (.wrap "failed to execute create auth key command: " err)),
          tr ++ [Event.ExecuteCommand t.container.ID
            ["headscale", "--namespace", ns, "preauthkeys", "create", "--reusable",
              "--expiration", "24h", "--output", "json"] []])) ∧
    (∀ stdout stderr, E.ExecuteCommand tr t.container.ID
        ["headscale", "--namespace", ns, "preauthkeys", "create", "--reusable",
          "--expiration", "24h", "--output", "json"] [] = ⟨stdout, stderr, none⟩ →
      (∀ err, UnmarshalKey stdout = .error err →
        CreateAuthKey E UnmarshalKey t ns tr =
          ((none, some (.wrap "failed to unmarshal auth key: " err)),
            tr ++ [Event.ExecuteCommand t.container.ID
              ["headscale", "--namespace", ns, "preauthkeys", "create", "--reusable",
                "--expiration", "24h", "--output", "json"] [], Event.jsonUnmarshal stdout])) ∧
      (∀ key, UnmarshalKey stdout = .ok key →
        (CreateAuthKey E UnmarshalKey t ns tr).1 = (some key, none))) ∧
    (∀ err, (E.ExecuteCommand tr t.container.ID
        ["headscale", "--namespace", ns, "nodes", "list", "--output", "json"] []).err =
          some err →
      ListMachinesInNamespace E UnmarshalNodes t ns tr =
        ((none, some (.wrap "failed to execute list node command: " err)),
          tr ++ [Event.ExecuteCommand t.container.ID
            ["headscale", "--namespace", ns, "nodes", "list", "--output", "json"] []])) ∧
    (∀ stdout stderr, E.ExecuteCommand tr t.container.ID
        ["headscale", "--namespace", ns, "nodes", "list", "--output", "json"] [] =
          ⟨stdout, stderr, none⟩ →
      (∀ err, UnmarshalNodes stdout = .error err →
        ListMachinesInNamespace E UnmarshalNodes t ns tr =
          ((none, some (.wrap "failed to unmarshal nodes: " err)),
            tr ++ [Event.ExecuteCommand t.container.ID
              ["headscale", "--namespace", ns, "nodes", "list", "--output", "json"] [],
              Event.jsonUnmarshal stdout])) ∧
      (∀ nodes, UnmarshalNodes stdout = .ok nodes →
        (ListMachinesInNamespace E UnmarshalNodes t ns tr).1 = (some nodes, none))) ∧
    (∀ c d : GoError,
      (GoError.wrap "failed to execute create auth key command: " c).Error ≠
        (GoError.wrap "failed to unmarshal auth key: " d).Error ∧
      (GoError.wrap "failed to execute list node command: " c).Error ≠
        (GoError.wrap "failed to unmarshal nodes: " d).Error) := by
  refine ⟨?_, ?_, ?_, ?_, ?_⟩
  · intro err h
    simp [CreateAuthKey, h]
  · intro stdout stderr h
    refine ⟨?_, ?_⟩
    · intro err hu
      simp [CreateAuthKey, h, hu]
    · intro key hu
      simp [CreateAuthKey, h, hu]
  · intro err h
    simp [ListMachinesInNamespace, h]
  · intro stdout stderr h
    refine ⟨?_, ?_⟩
    · intro err hu
      simp [ListMachinesInNamespace, h, hu]
    · intro nodes hu
      simp [ListMachinesInNamespace, h, hu]
  · intro c d
    exact ⟨wrap_Error_ne _ _ (by decide) c d, wrap_Error_ne _ _ (by decide) c d⟩

/-- C9, at concrete inputs: a failing command, a stdout that does not decode,
and a stdout that decodes, for both operations. -/
theorem admin_command_errors_witness :
    (CreateAuthKey (failingExecEnv "" "boom") sampleUnmarshal sampleInstance "user1" []).1 =
      (none, some (.wrap "failed to execute create auth key command: " (.mk "command failed"))) ∧
    (CreateAuthKey (printingEnv "oops") sampleUnmarshal sampleInstance "user1" []).1 =
      (none, some (.wrap "failed to unmarshal auth key: " (.mk "invalid character"))) ∧
    (CreateAuthKey (printingEnv "null") sampleUnmarshal sampleInstance "user1" []).1 =
      (some 0, none) ∧
    (ListMachinesInNamespace (failingExecEnv "" "boom") sampleUnmarshal sampleInstance "user1"
      []).1 =
      (none, some (.wrap "failed to execute list node command: " (.mk "command failed"))) ∧
    (ListMachinesInNamespace (printingEnv "oops") sampleUnmarshal sampleInstance "user1" []).1 =
      (none, some (.wrap "failed to unmarshal nodes: " (.mk "invalid character"))) ∧
    (ListMachinesInNamespace (printingEnv "null") sampleUnmarshal sampleInstance "user1" []).1 =
      (some 0, none) :=
  ⟨by rw [(admin_command_errors (failingExecEnv "" "boom") sampleUnmarshal sampleUnmarshal
        sampleInstance "user1" []).1 (.mk "command failed") rfl],
   by rw [((admin_command_errors (printingEnv "oops") sampleUnmarshal sampleUnmarshal
        sampleInstance "user1" []).2.1 "oops" "" rfl).1 (.mk "invalid character") rfl],
   ((admin_command_errors (printingEnv "null") sampleUnmarshal sampleUnmarshal
        sampleInstance "user1" []).2.1 "null" "" rfl).2 0 rfl,
   by rw [(admin_command_errors (failingExecEnv "" "boom") sampleUnmarshal sampleUnmarshal
        sampleInstance "user1" []).2.2.1 (.mk "command failed") rfl],
   by rw [((admin_command_errors (printingEnv "oops") sampleUnmarshal sampleUnmarshal
        sampleInstance "user1" []).2.2.2.1 "oops" "" rfl).1 (.mk "invalid character")
        rfl],
   ((admin_command_errors (printingEnv "null") sampleUnmarshal sampleUnmarshal
        sampleInstance "user1" []).2.2.2.1 "null" "" rfl).2 0 rfl⟩

/-! ## New: the environment of the container -/

theorem render_configEnv (configEnv : List (String × String)) :
    ∀ acc : List String,
      configEnv.foldl (fun env kv => env ++ [kv.1 ++ "=" ++ kv.2]) acc =
        acc ++ configEnv.map (fun kv => kv.1 ++ "=" ++ kv.2) := by
  induction configEnv with
  | nil => intro acc; simp
  | cons kv rest ih => intro acc; simp [ih]

theorem foldl_options (specs : List (OptionSpec ACL)) :
    ∀ hsic : HeadscaleInContainer ACL,
      (specs.map OptionSpec.toOption).foldl (fun hsic opt => opt hsic) hsic =
        { hsic with
          aclPolicy := specs.foldl (fun acc spec =>
            match spec with
            | .withACLPolicy acl => acl
            | .withConfigEnv _ => acc) hsic.aclPolicy
          env := (specs.foldl (fun acc spec =>
            match spec with
            | .withConfigEnv configEnv => configEnv.map (fun kv => kv.1 ++ "=" ++ kv.2)
            | .withACLPolicy _ => acc) hsic.env) } := by
  induction specs with
  | nil => intro hsic; rfl
  | cons spec rest ih =>
    intro hsic
    cases spec with
    | withACLPolicy acl =>
      simp only [List.map_cons, List.foldl_cons, OptionSpec.toOption, WithACLPolicy, ih]
    | withConfigEnv configEnv =>
      simp only [List.map_cons, List.foldl_cons, OptionSpec.toOption, WithConfigEnv, ih,
        render_configEnv, List.nil_append]

theorem foldl_lastConfigEnv (specs : List (OptionSpec ACL)) :
    ∀ acc : List (String × String),
      specs.foldl (fun acc spec =>
        match spec with
        | .withConfigEnv configEnv => configEnv.map (fun kv => kv.1 ++ "=" ++ kv.2)
        | .withACLPolicy _ => acc) (acc.map (fun kv => kv.1 ++ "=" ++ kv.2)) =
      (specs.foldl (fun acc spec =>
        match spec with
        | .withConfigEnv configEnv => configEnv
        | .withACLPolicy _ => acc) acc).map (fun kv => kv.1 ++ "=" ++ kv.2) := by
  induction specs with
  | nil => intro acc; rfl
  | cons spec rest ih =>
    intro acc
    cases spec with
    | withACLPolicy acl => simpa using ih acc
    | withConfigEnv configEnv => simpa using ih configEnv

theorem applyOptions_specs (hostname : String) (port : Int) (network : Network)
    (specs : List (OptionSpec ACL)) :
    (applyOptions hostname port network (specs.map OptionSpec.toOption)).aclPolicy =
      lastPolicy specs ∧
    (applyOptions hostname port network (specs.map OptionSpec.toOption)).env =
      (lastConfigEnv specs).map (fun kv => kv.1 ++ "=" ++ kv.2) := by
  unfold applyOptions lastPolicy lastConfigEnv
  constructor
  · simp only [foldl_options]
  · simp only [foldl_options]
    exact foldl_lastConfigEnv specs []

theorem configure_env (hostname : String) (port : Int) (network : Network)
    (specs : List (OptionSpec ACL)) :
    (configure hostname port network (specs.map OptionSpec.toOption)).env =
      (lastConfigEnv specs).map (fun kv => kv.1 ++ "=" ++ kv.2) ++
        (if (lastPolicy specs).isSome then
          ["HEADSCALE_ACL_POLICY_PATH=/etc/headscale/acl.hujson"] else []) := by
  obtain ⟨h1, h2⟩ := applyOptions_specs hostname port network specs
  unfold configure
  simp only [h1]
  cases hp : lastPolicy specs with
  | none => simp [h2]
  | some acl =>
    simp only [Option.isSome_some, if_true, h2, aclPolicyPath]
    rfl

theorem runCalls_append : ∀ (a b : Trace), runCalls (a ++ b) = runCalls a ++ runCalls b
  | [], b => by simp [runCalls]
  | e :: a, b => by
    cases e <;> simp [runCalls, runCalls_append a b]

theorem runCalls_WriteFile (L : TarLib) (E : Env) (t : HeadscaleInContainer ACL)
    (path : String) (data : List UInt8) (tr : Trace) :
    runCalls (WriteFile L E t path data tr).2 = runCalls tr := by
  obtain ⟨added, hadd, hev⟩ := WriteFile_trace L E t path data tr
  rw [hadd, runCalls_append]
  have : ∀ l : Trace, (∀ e ∈ l, ∀ b r c, e ≠ Event.BuildAndRunWithBuildOptions b r c) →
      runCalls l = [] := by
    intro l
    induction l with
    | nil => intro _; rfl
    | cons e l ih =>
      intro h
      have hl := ih (fun e he => h e (List.mem_cons_of_mem _ he))
      cases e with
      | BuildAndRunWithBuildOptions b r c => exact absurd rfl (h _ (List.mem_cons_self _ _) b r c)
      | _ => simpa [runCalls] using hl
  rw [this added, List.append_nil]
  intro e he b r c hbr
  rcases hev e he with h | h | h | h | ⟨line, h⟩ | h | h <;> rw [h] at hbr <;>
    exact Event.noConfusion hbr

/-- The container starts of `New`: none when the host name cannot be made or
the stale container cannot be removed, else one, with the environment of the
configured instance. -/
theorem New_runCalls (L : TarLib) (E : Env) (Marshal : ACL → Except GoError (List UInt8))
    (port : Int) (network : Network) (opts : List (HsicOption ACL)) (tr : Trace) :
    runCalls (New L E Marshal port network opts tr).2 =
      runCalls tr ++
        match E.GenerateRandomStringDNSSafe tr hsicHashLength with
        | .error _ => []
        | .ok hash =>
          match E.RemoveContainerByName
              (tr ++ [Event.GenerateRandomStringDNSSafe hsicHashLength]) ("hs-" ++ hash) with
          | some _ => []
          | none =>
            [{ Name := "hs-" ++ hash, ExposedPorts := [fmtD port ++ "/tcp"],
               Networks := [network],
               Entrypoint := ["/bin/bash", "-c", "/bin/sleep 3 ; headscale serve"],
               Env := (configure ("hs-" ++ hash) port network opts).env }] := by
  unfold New
  cases hh : E.GenerateRandomStringDNSSafe tr hsicHashLength with
  | error err => simp [runCalls_append, runCalls]
  | ok hash =>
    simp only []
    cases hr : E.RemoveContainerByName
        (tr ++ [Event.GenerateRandomStringDNSSafe hsicHashLength]) ("hs-" ++ hash) with
    | some err => simp [runCalls_append, runCalls]
    | none =>
      simp only []
      split
      · simp [runCalls_append, runCalls]
      · split
        · simp [runCalls_WriteFile, runCalls_append, runCalls]
        · split
          · simp [runCalls_WriteFile, runCalls_append, runCalls]
          · split
            · simp [runCalls_WriteFile, runCalls_append, runCalls]
            · split
              · simp [runCalls_WriteFile, runCalls_append, runCalls]
              · simp [runCalls_WriteFile, runCalls_append, runCalls]

theorem namesPolicyPath_policy_entry :
    namesPolicyPath "HEADSCALE_ACL_POLICY_PATH=/etc/headscale/acl.hujson" = true := by
  decide

/-- C7 (as stated, refuted): with the one option
`WithConfigEnv` of a map that holds the key `HEADSCALE_ACL_POLICY_PATH` and no
policy, the instance has a nil policy and yet the environment handed to the
container start holds an entry for that variable. -/
theorem New_env_entry_without_policy :
    (applyOptions "hs-abc123" 8080 { Name := "hsnet" }
      [(WithConfigEnv [("HEADSCALE_ACL_POLICY_PATH", "/tmp/other.hujson")] :
        HsicOption Unit)]).aclPolicy = none ∧
    (runCalls (New (archiveTar ustar) calmEnv sampleMarshal 8080 { Name := "hsnet" }
      [WithConfigEnv [("HEADSCALE_ACL_POLICY_PATH", "/tmp/other.hujson")]] []).2).map
        (fun run => run.Env) = [["HEADSCALE_ACL_POLICY_PATH=/tmp/other.hujson"]] ∧
    namesPolicyPath "HEADSCALE_ACL_POLICY_PATH=/tmp/other.hujson" = true := by
  refine ⟨rfl, ?_, by decide⟩
  rw [New_runCalls]
  rfl

/-- C7 (amended): for every list of `WithACLPolicy` and `WithConfigEnv`
options, in any order, the environment handed to the container start (the
`Env` of the run options, fixed before the start is called) is the entries of
the last `WithConfigEnv` map followed, exactly when the policy of the instance
is non-nil after the options, by the one entry
`HEADSCALE_ACL_POLICY_PATH=/etc/headscale/acl.hujson`; so that entry is in the
environment whenever a policy was supplied.  When that map renders no entry
for the variable, the environment holds an entry for
`HEADSCALE_ACL_POLICY_PATH` if and only if a policy was supplied, and then
that entry is exactly the one above.  The container is started once the host
name is made and the stale container removed. -/
theorem New_policy_path_env (L : TarLib) (E : Env)
    (Marshal : ACL → Except GoError (List UInt8)) (port : Int) (network : Network)
    (specs : List (OptionSpec ACL)) (tr : Trace) :
    (∀ hostname, (applyOptions hostname port network
      (specs.map OptionSpec.toOption)).aclPolicy = lastPolicy specs) ∧
    ∃ started,
      runCalls (New L E Marshal port network (specs.map OptionSpec.toOption) tr).2 =
        runCalls tr ++ started ∧
      (∀ hash, E.GenerateRandomStringDNSSafe tr hsicHashLength = .ok hash →
        E.RemoveContainerByName (tr ++ [Event.GenerateRandomStringDNSSafe hsicHashLength])
          ("hs-" ++ hash) = none →
        started.length = 1) ∧
      ∀ run ∈ started,
        run.Env = (lastConfigEnv specs).map (fun kv => kv.1 ++ "=" ++ kv.2) ++
          (if (lastPolicy specs).isSome then
            ["HEADSCALE_ACL_POLICY_PATH=/etc/headscale/acl.hujson"] else []) ∧
        ((lastPolicy specs).isSome = true →
          "HEADSCALE_ACL_POLICY_PATH=/etc/headscale/acl.hujson" ∈ run.Env) ∧
        ((lastPolicy specs).isSome = false →
          run.Env = (lastConfigEnv specs).map (fun kv => kv.1 ++ "=" ++ kv.2)) ∧
        ((∀ kv ∈ lastConfigEnv specs, namesPolicyPath (kv.1 ++ "=" ++ kv.2) = false) →
          ((∃ e ∈ run.Env, namesPolicyPath e = true) ↔ (lastPolicy specs).isSome = true) ∧
          (∀ e ∈ run.Env, namesPolicyPath e = true →
            e = "HEADSCALE_ACL_POLICY_PATH=/etc/headscale/acl.hujson")) := by
  refine ⟨fun hostname => (applyOptions_specs hostname port network specs).1, _,
    New_runCalls L E Marshal port network _ tr, ?_, ?_⟩
  · intro hash hh hr
    simp [hh, hr]
  · intro run hrun
    have henv : run.Env = (lastConfigEnv specs).map (fun kv => kv.1 ++ "=" ++ kv.2) ++
        (if (lastPolicy specs).isSome then
          ["HEADSCALE_ACL_POLICY_PATH=/etc/headscale/acl.hujson"] else []) := by
      cases hh : E.GenerateRandomStringDNSSafe tr hsicHashLength with
      | error err => simp [hh] at hrun
      | ok hash =>
        cases hr : E.RemoveContainerByName
            (tr ++ [Event.GenerateRandomStringDNSSafe hsicHashLength]) ("hs-" ++ hash) with
        | some err => simp [hh, hr] at hrun
        | none =>
          simp only [hh, hr, List.mem_singleton] at hrun
          rw [hrun]
          exact configure_env _ port network specs
    refine ⟨henv, ?_, ?_, ?_⟩
    · intro hp
      rw [henv]
      simp [hp]
    · intro hp
      rw [henv]
      simp [hp]
    · intro hcfg
      have hno : ∀ e ∈ (lastConfigEnv specs).map (fun kv => kv.1 ++ "=" ++ kv.2),
          namesPolicyPath e = false := by
        intro e he
        obtain ⟨kv, hkv, rfl⟩ := List.mem_map.mp he
        exact hcfg kv hkv
      refine ⟨?_, ?_⟩
      · rw [henv]
        constructor
        · rintro ⟨e, he, hn⟩
          rcases List.mem_append.mp he with h | h
          · rw [hno e h] at hn
            exact absurd hn (by decide)
          · by_cases hp : (lastPolicy specs).isSome = true
            · exact hp
            · simp [hp] at h
        · intro hp
          exact ⟨_, by simp [hp], namesPolicyPath_policy_entry⟩
      · rw [henv]
        intro e he hn
        rcases List.mem_append.mp he with h | h
        · rw [hno e h] at hn
          exact absurd hn (by decide)
        · by_cases hp : (lastPolicy specs).isSome = true
          · simpa [hp] using h
          · simp [hp] at h

/-- C7, at concrete inputs: a log-level map, then a policy; and the map that
itself holds the key `HEADSCALE_ACL_POLICY_PATH`, without a policy. -/
theorem New_policy_path_env_witness :
    (runCalls (New (archiveTar ustar) calmEnv sampleMarshal 8080 { Name := "hsnet" }
      ([OptionSpec.withConfigEnv [("HEADSCALE_LOG_LEVEL", "trace")],
        OptionSpec.withACLPolicy (some ())].map OptionSpec.toOption) []).2).map
        (fun run => run.Env) =
      [["HEADSCALE_LOG_LEVEL=trace", "HEADSCALE_ACL_POLICY_PATH=/etc/headscale/acl.hujson"]] ∧
    (runCalls (New (archiveTar ustar) calmEnv sampleMarshal 8080 { Name := "hsnet" }
      ([OptionSpec.withConfigEnv [("HEADSCALE_ACL_POLICY_PATH", "/tmp/other.hujson")]].map
        OptionSpec.toOption) []).2).map (fun run => run.Env) =
      [["HEADSCALE_ACL_POLICY_PATH=/tmp/other.hujson"]] := by
  obtain ⟨_, started, hs, hlen, hall⟩ := New_policy_path_env (archiveTar ustar) calmEnv
    sampleMarshal 8080 { Name := "hsnet" }
    [OptionSpec.withConfigEnv [("HEADSCALE_LOG_LEVEL", "trace")],
      OptionSpec.withACLPolicy (some ())] []
  obtain ⟨_, started2, hs2, hlen2, hall2⟩ := New_policy_path_env (archiveTar ustar) calmEnv
    sampleMarshal 8080 { Name := "hsnet" }
    [(OptionSpec.withConfigEnv [("HEADSCALE_ACL_POLICY_PATH", "/tmp/other.hujson")] :
      OptionSpec Unit)] []
  have h1 := hlen "abc123" rfl rfl
  have h2 := hlen2 "abc123" rfl rfl
  rw [hs, hs2]
  refine ⟨?_, ?_⟩
  · match started, h1, hall with
    | [run], _, hall =>
      rw [show runCalls ([] : Trace) = [] from rfl, List.nil_append, List.map_singleton,
        (hall run (List.mem_singleton_self run)).1]
      rfl
  · match started2, h2, hall2 with
    | [run], _, hall2 =>
      rw [show runCalls ([] : Trace) = [] from rfl, List.nil_append, List.map_singleton,
        (hall2 run (List.mem_singleton_self run)).1]
      rfl

/-! ## The tar writer on the calls of WriteFile -/

theorem zeroBlock_length : zeroBlock.length = blockSize := by
  simp [zeroBlock]

theorem blockPadding_completes (size : Nat) : (size + blockPadding size) % blockSize = 0 := by
  unfold blockPadding blockSize
  omega

theorem blockPadding_lt (size : Nat) : blockPadding size < blockSize := by
  unfold blockPadding blockSize
  omega

theorem archiveTar_headerStage (fmt : TarFormat) (path : String) (data hb : List UInt8)
    (hfmt : fmt.formatHeader (fileHeader path data) = .ok hb) :
    headerStage (archiveTar fmt) path data =
      (none, { buf := hb, nb := data.length, pad := blockPadding data.length, err := none }) := by
  unfold fileHeader at hfmt
  simp [headerStage, archiveTar, TarWriter.WriteHeader, TarWriter.Flush, TarWriter.NewWriter,
    hfmt, fileHeader]

theorem archiveTar_copyStage (fmt : TarFormat) (path : String) (data hb : List UInt8)
    (hfmt : fmt.formatHeader (fileHeader path data) = .ok hb) :
    copyStage (archiveTar fmt) path data =
      (none, { buf := hb ++ data, nb := 0, pad := blockPadding data.length, err := none }) := by
  unfold copyStage
  rw [archiveTar_headerStage fmt path data hb hfmt]
  by_cases h : data.length = 0
  · have hd : data = [] := List.length_eq_zero.mp h
    subst hd
    simp [archiveTar, TarWriter.Copy]
  · simp [archiveTar, TarWriter.Copy, TarWriter.Write, h]

theorem archiveTar_closeStage (fmt : TarFormat) (path : String) (data hb : List UInt8)
    (hfmt : fmt.formatHeader (fileHeader path data) = .ok hb) :
    closeStage (archiveTar fmt) path data =
      (none, { buf := hb ++ data ++ List.replicate (blockPadding data.length) 0 ++
                  zeroBlock ++ zeroBlock,
               nb := 0, pad := 0, err := some ErrWriteAfterClose }) := by
  unfold closeStage
  rw [archiveTar_copyStage fmt path data hb hfmt]
  simp [archiveTar, TarWriter.Close, TarWriter.Flush]

theorem archiveTar_archive (fmt : TarFormat) (path : String) (data hb : List UInt8)
    (hfmt : fmt.formatHeader (fileHeader path data) = .ok hb) :
    archive (archiveTar fmt) path data =
      hb ++ data ++ List.replicate (blockPadding data.length) 0 ++ zeroBlock ++ zeroBlock := by
  unfold archive
  rw [archiveTar_closeStage fmt path data hb hfmt]
  rfl

theorem readArchive_trailer (fmt : TarFormat) (fuel : Nat) :
    readArchive fmt (fuel + 1) (zeroBlock ++ zeroBlock) = .ok [] := by
  have hz := zeroBlock_length
  have hpos : 0 < blockSize := by decide
  unfold readArchive
  rw [if_neg (by rw [List.length_append, hz]; omega),
    if_neg (by rw [List.length_append, hz]; omega),
    if_pos (List.take_left' hz)]
  simp only [List.drop_left' hz]
  rw [if_neg (by rw [hz]; omega), if_neg (by rw [hz]; omega),
    if_pos (by rw [← hz, List.take_length])]

theorem readArchive_single (fmt : TarFormat) (hdr : TarHeader) (data hb : List UInt8)
    (fuel : Nat) (hsize : hdr.Size.toNat = data.length)
    (hlen : blockSize ≤ hb.length) (hnz : hb.take blockSize ≠ zeroBlock)
    (hparse : ∀ rest, fmt.parseHeader (hb ++ rest) = some (hdr, rest)) :
    readArchive fmt (fuel + 2)
      (hb ++ data ++ List.replicate (blockPadding data.length) 0 ++ zeroBlock ++ zeroBlock) =
      .ok [(hdr, data)] := by
  have hz := zeroBlock_length
  have hpos : 0 < blockSize := by decide
  have hassoc : hb ++ data ++ List.replicate (blockPadding data.length) 0 ++ zeroBlock ++
      zeroBlock = hb ++ ((data ++ List.replicate (blockPadding data.length) 0) ++
        (zeroBlock ++ zeroBlock)) := by
    simp only [List.append_assoc]
  rw [hassoc]
  unfold readArchive
  rw [if_neg (by rw [List.length_append]; omega), if_neg (by rw [List.length_append]; omega),
    if_neg (by rw [List.take_append_of_le_length hlen]; exact hnz)]
  simp only [hparse, hsize]
  have hl : (data ++ List.replicate (blockPadding data.length) (0 : UInt8)).length =
      data.length + blockPadding data.length := by
    rw [List.length_append, List.length_replicate]
  rw [if_neg (by rw [List.length_append, hl]; omega), List.drop_left' hl,
    readArchive_trailer fmt fuel]
  simp only [List.append_assoc]
  rw [List.take_left' rfl]

theorem ustar_parseHeader_block (hb : List UInt8) (hdr : TarHeader)
    (h512 : hb.length = blockSize)
    (hsum : parseOctal ((hb.drop 148).take 8) = checksum hb)
    (hname : ((hb.take 100).takeWhile (fun b => b ≠ 0)).map (fun b => Char.ofNat b.toNat) =
      hdr.Name.data)
    (hsize : (parseOctal ((hb.drop 124).take 12) : Int) = hdr.Size) :
    ∀ rest, ustar.parseHeader (hb ++ rest) = some (hdr, rest) := by
  intro rest
  simp only [ustar]
  rw [if_neg (by rw [List.length_append, h512]; omega), List.take_left' h512,
    List.drop_left' h512]
  simp only [ne_eq, hsum, not_true_eq_false, if_false, hname, hsize]

/-! ## The USTAR layout is lawful -/

theorem octalDigits_length (n x : Nat) : (octalDigits n x).length = n := by
  simp [octalDigits]

theorem formatOctal_length (w x : Nat) (hw : 0 < w) : (formatOctal w x).length = w := by
  simp [formatOctal, octalDigits_length]
  omega

theorem formatString_length (w : Nat) (s : List UInt8) (h : s.length ≤ w) :
    (formatString w s).length = w := by
  simp [formatString]
  omega

theorem octalDigits_succ (n x : Nat) :
    octalDigits (n + 1) x = (48 + x / 8 ^ n % 8).toUInt8 :: octalDigits n x := by
  simp [octalDigits, List.range_succ]

theorem digit_toNat (d : Nat) (h : d < 8) : ((48 + d).toUInt8).toNat = 48 + d := by
  show (48 + d) % 256 = 48 + d
  omega

theorem takeWhile_octalDigits (n x : Nat) (rest : List UInt8) :
    (octalDigits n x ++ 0 :: rest).takeWhile
      (fun b => decide (48 ≤ b.toNat ∧ b.toNat < 56)) = octalDigits n x := by
  induction n with
  | zero => simp [octalDigits]
  | succ n ih =>
    have hd := digit_toNat (x / 8 ^ n % 8) (Nat.mod_lt _ (by decide))
    rw [octalDigits_succ, List.cons_append, List.takeWhile_cons, if_pos, ih]
    rw [hd]
    simp
    omega

theorem foldl_octalDigits (n x : Nat) : ∀ acc : Nat,
    (octalDigits n x).foldl (fun acc b => acc * 8 + (b.toNat - 48)) acc =
      acc * 8 ^ n + x % 8 ^ n := by
  induction n with
  | zero => intro acc; simp [octalDigits, Nat.mod_one]
  | succ n ih =>
    intro acc
    have hd := digit_toNat (x / 8 ^ n % 8) (Nat.mod_lt _ (by decide))
    rw [octalDigits_succ, List.foldl_cons, ih, hd, Nat.mod_pow_succ]
    simp only [Nat.add_sub_cancel_left]
    ring

theorem parseOctal_formatOctal (n x : Nat) (rest : List UInt8) (h : x < 8 ^ n) :
    parseOctal (octalDigits n x ++ 0 :: rest) = x := by
  unfold parseOctal
  rw [takeWhile_octalDigits, foldl_octalDigits, Nat.mod_eq_of_lt h]
  simp

theorem sum_toNat_le (l : List UInt8) : (l.map (fun b => b.toNat)).sum ≤ 255 * l.length := by
  induction l with
  | nil => simp
  | cons b l ih =>
    have hb : b.toNat < 256 := b.toNat_lt
    simp only [List.map_cons, List.sum_cons, List.length_cons]
    omega

theorem ustarFront_length (name : List UInt8) (size : Nat) (h : name.length ≤ 100) :
    (ustarFront name size).length = 148 := by
  simp only [ustarFront, List.length_append, formatString_length 100 name h,
    formatOctal_length 8 0 (by decide), formatOctal_length 12 _ (by decide)]

theorem ustarBack_length : ustarBack.length = 356 := by
  simp only [ustarBack, List.length_append, List.length_replicate, List.length_cons,
    List.length_nil, formatOctal_length 8 0 (by decide)]

theorem checksum_of_parts (front field back : List UInt8) (hf : front.length = 148)
    (hc : field.length = 8) :
    checksum (front ++ field ++ back) =
      ((front ++ List.replicate 8 (32 : UInt8) ++ back).map (fun b => b.toNat)).sum := by
  unfold checksum
  have h1 : (front ++ field ++ back).take 148 = front := by
    rw [List.append_assoc, List.take_left' hf]
  have h2 : (front ++ field ++ back).drop 156 = back := by
    rw [List.drop_left' (by rw [List.length_append, hf, hc])]
  rw [h1, h2]

theorem checksum_lt (front field back : List UInt8) (hf : front.length = 148)
    (hc : field.length = 8) (hb : back.length = 356) :
    checksum (front ++ field ++ back) < 8 ^ 6 := by
  rw [checksum_of_parts front field back hf hc]
  have h := sum_toNat_le (front ++ List.replicate 8 (32 : UInt8) ++ back)
  simp only [List.length_append, List.length_replicate, hf, hb] at h
  have : (8 : Nat) ^ 6 = 262144 := by norm_num
  omega

theorem ustarBlock_length (name : List UInt8) (size : Nat) (h : name.length ≤ 100) :
    (ustarBlock name size).length = blockSize := by
  simp only [ustarBlock, List.length_append, ustarFront_length name size h, ustarBack_length,
    formatOctal_length 7 _ (by decide), List.length_cons, List.length_nil, blockSize]

theorem ustarBlock_checksum (name : List UInt8) (size : Nat) (h : name.length ≤ 100) :
    parseOctal (((ustarBlock name size).drop 148).take 8) = checksum (ustarBlock name size) := by
  have hf := ustarFront_length name size h
  have hfield : (formatOctal 7 (checksum (ustarFront name size ++ List.replicate 8 0 ++
      ustarBack)) ++ [32]).length = 8 := by
    simp [formatOctal_length 7 _ (by decide)]
  have h1 : ((ustarBlock name size).drop 148).take 8 =
      formatOctal 7 (checksum (ustarFront name size ++ List.replicate 8 0 ++ ustarBack)) ++
        [32] := by
    unfold ustarBlock
    rw [List.append_assoc, List.drop_left' hf, List.take_left' hfield]
  rw [h1]
  have h2 : checksum (ustarBlock name size) =
      checksum (ustarFront name size ++ List.replicate 8 0 ++ ustarBack) := by
    unfold ustarBlock
    rw [checksum_of_parts _ _ _ hf hfield, checksum_of_parts _ _ _ hf (by simp)]
  rw [h2]
  have hlt := checksum_lt (ustarFront name size) (List.replicate 8 0) ustarBack hf (by simp)
    ustarBack_length
  generalize checksum (ustarFront name size ++ List.replicate 8 0 ++ ustarBack) = s at hlt ⊢
  show parseOctal (octalDigits 6 s ++ [0] ++ [32]) = s
  rw [List.append_assoc]
  exact parseOctal_formatOctal 6 s [32] hlt

theorem takeWhile_formatString (w : Nat) (s : List UInt8) (h : ∀ b ∈ s, b ≠ 0) :
    (formatString w s).takeWhile (fun b => b ≠ 0) = s := by
  unfold formatString
  rw [List.takeWhile_append_of_pos (by simpa using h)]
  cases hk : w - s.length with
  | zero => simp
  | succ k => simp [List.replicate_succ]

theorem ustarBlock_name (name : List UInt8) (size : Nat) (h : name.length ≤ 100)
    (hnz : ∀ b ∈ name, b ≠ 0) :
    ((ustarBlock name size).take 100).takeWhile (fun b => b ≠ 0) = name := by
  have h1 : (ustarBlock name size).take 100 = formatString 100 name := by
    simp only [ustarBlock, ustarFront, List.append_assoc]
    exact List.take_left' (formatString_length 100 name h)
  rw [h1, takeWhile_formatString 100 name hnz]

theorem ustarBlock_size (name : List UInt8) (size : Nat) (h : name.length ≤ 100)
    (hs : size < 8 ^ 11) :
    parseOctal (((ustarBlock name size).drop 124).take 12) = size := by
  have hl : (formatString 100 name ++ formatOctal 8 0 ++ formatOctal 8 0 ++
      formatOctal 8 0).length = 124 := by
    simp only [List.length_append, formatString_length 100 name h,
      formatOctal_length 8 0 (by decide)]
  have h1 : ((ustarBlock name size).drop 124).take 12 = formatOctal 12 size := by
    have : ustarBlock name size = (formatString 100 name ++ formatOctal 8 0 ++ formatOctal 8 0 ++
        formatOctal 8 0) ++ (formatOctal 12 size ++ (formatOctal 12 0 ++
          ((formatOctal 7 (checksum (ustarFront name size ++ List.replicate 8 0 ++
            ustarBack)) ++ [32]) ++ ustarBack))) := by
      simp only [ustarBlock, ustarFront, List.append_assoc]
    rw [this, List.drop_left' hl, List.take_left' (formatOctal_length 12 size (by decide))]
  rw [h1]
  show parseOctal (octalDigits 11 size ++ [0]) = size
  exact parseOctal_formatOctal 11 size [] hs

theorem ustarBlock_nonzero (name : List UInt8) (size : Nat) (h : name.length ≤ 100) :
    (ustarBlock name size).take blockSize ≠ zeroBlock := by
  intro heq
  have h1 : ((ustarBlock name size).take blockSize)[100]? = some 48 := by
    rw [← ustarBlock_length name size h, List.take_length]
    have : ustarBlock name size = formatString 100 name ++ (48 :: (octalDigits 6 0 ++ [0] ++
        (formatOctal 8 0 ++ formatOctal 8 0 ++ formatOctal 12 size ++ formatOctal 12 0 ++
          ((formatOctal 7 (checksum (ustarFront name size ++ List.replicate 8 0 ++
            ustarBack)) ++ [32]) ++ ustarBack)))) := by
      simp only [ustarBlock, ustarFront, List.append_assoc]
      rfl
    rw [this, List.getElem?_append_right (by rw [formatString_length 100 name h]),
      formatString_length 100 name h]
    rfl
  have h2 : zeroBlock[100]? = some 0 := by
    unfold zeroBlock blockSize
    rw [List.getElem?_replicate]
    decide
  rw [heq, h2] at h1
  exact absurd h1 (by decide)

theorem char_of_byte (c : Char) (h : c.toNat < 128) :
    Char.ofNat (c.toNat.toUInt8).toNat = c := by
  have : (c.toNat.toUInt8).toNat = c.toNat := by
    show c.toNat % 256 = c.toNat
    omega
  rw [this, Char.ofNat_toNat]

theorem byte_of_char_ne_zero (c : Char) (h0 : 0 < c.toNat) (h : c.toNat < 128) :
    c.toNat.toUInt8 ≠ 0 := by
  intro heq
  have h1 : (c.toNat.toUInt8).toNat = c.toNat := by
    show c.toNat % 256 = c.toNat
    omega
  rw [heq] at h1
  have h2 : (0 : UInt8).toNat = 0 := rfl
  omega

/-- The USTAR layout is lawful: a block written for a header that fits is 512
bytes long, is no zero block, and is read back as that header. -/
theorem ustar_lawful : ustar.Lawful := by
  have key : ∀ hdr hb, ustar.formatHeader hdr = .ok hb →
      (∀ c ∈ hdr.Name.data, 0 < c.toNat ∧ c.toNat < 128) ∧ hdr.Name.data.length ≤ 100 ∧
      0 ≤ hdr.Size ∧ hdr.Size < 8 ^ 11 ∧
      hb = ustarBlock (hdr.Name.data.map (fun c => c.toNat.toUInt8)) hdr.Size.toNat := by
    intro hdr hb h
    simp only [ustar] at h
    by_cases hfit : fitsUSTAR hdr = true
    · rw [if_pos hfit] at h
      simp only [fitsUSTAR, Bool.and_eq_true, List.all_eq_true, decide_eq_true_eq] at hfit
      obtain ⟨⟨⟨h1, h2⟩, h3⟩, h4⟩ := hfit
      injection h with h
      exact ⟨h1, h2, h3, h4, h.symm⟩
    · rw [if_neg hfit] at h
      exact Except.noConfusion h
  refine ⟨?_, ?_, ?_⟩
  · intro hdr hb h
    obtain ⟨_, h2, _, _, rfl⟩ := key hdr hb h
    rw [ustarBlock_length _ _ (by simpa using h2)]
  · intro hdr hb h
    obtain ⟨_, h2, _, _, rfl⟩ := key hdr hb h
    exact ustarBlock_nonzero _ _ (by simpa using h2)
  · intro hdr hb rest h
    obtain ⟨h1, h2, h3, h4, rfl⟩ := key hdr hb h
    have hlen : (hdr.Name.data.map (fun c => c.toNat.toUInt8)).length ≤ 100 := by
      simpa using h2
    have hsz : hdr.Size.toNat < 8 ^ 11 := by
      have := Int.toNat_of_nonneg h3
      omega
    apply ustar_parseHeader_block _ _ (ustarBlock_length _ _ hlen)
      (ustarBlock_checksum _ _ hlen)
    · rw [ustarBlock_name _ _ hlen ?_, List.map_map]
      · conv_rhs => rw [← List.map_id hdr.Name.data]
        apply List.map_congr_left
        intro c hc
        exact char_of_byte c (h1 c hc).2
      · intro b hb
        obtain ⟨c, hc, rfl⟩ := List.mem_map.mp hb
        exact byte_of_char_ne_zero c (h1 c hc).1 (h1 c hc).2
    · rw [ustarBlock_size _ _ hlen hsz]
      exact Int.toNat_of_nonneg h3

theorem ustarBlock_typeflag (name : List UInt8) (size : Nat) (h : name.length ≤ 100)
    (rest : List UInt8) : (ustarBlock name size ++ rest)[156]? = some 48 := by
  have hl : (ustarFront name size ++ (formatOctal 7 (checksum (ustarFront name size ++
      List.replicate 8 0 ++ ustarBack)) ++ [32])).length = 156 := by
    simp only [List.length_append, ustarFront_length name size h,
      formatOctal_length 7 _ (by decide), List.length_cons, List.length_nil]
  have hb : ustarBack = 48 :: (List.replicate 100 0 ++ [117, 115, 116, 97, 114, 0] ++ [48, 48] ++
      List.replicate 32 0 ++ List.replicate 32 0 ++ formatOctal 8 0 ++ formatOctal 8 0 ++
      List.replicate 155 0 ++ List.replicate 12 0) := by
    simp only [ustarBack, List.append_assoc, List.singleton_append, List.cons_append,
      List.nil_append]
  unfold ustarBlock
  rw [List.append_assoc, List.getElem?_append_right (by rw [hl]), hl, hb]
  rfl

/-- The layout `archive/tar` picks is lawful when its PAX part is, provided a
PAX header does not start with a block of type flag `0`. -/
theorem tarLayout_lawful (refusal : TarHeader → GoError) (pax : TarFormat) (hpax : pax.Lawful)
    (hflag : ∀ hdr hb, pax.formatHeader hdr = .ok hb → hb[156]? ≠ some 48) :
    (tarLayout refusal pax).Lawful := by
  have key : ∀ hdr hb, (tarLayout refusal pax).formatHeader hdr = .ok hb →
      (fitsUSTAR hdr = true ∧ ustar.formatHeader hdr = .ok hb) ∨
      (fitsUSTAR hdr = false ∧ pax.formatHeader hdr = .ok hb) := by
    intro hdr hb h
    simp only [tarLayout] at h
    split at h
    · exact Except.noConfusion h
    · split at h
      · rename_i hfit
        exact Or.inl ⟨hfit, h⟩
      · rename_i hfit
        exact Or.inr ⟨by simpa using hfit, h⟩
  have hblock : ∀ hdr hb, fitsUSTAR hdr = true → ustar.formatHeader hdr = .ok hb →
      ∀ rest, (hb ++ rest)[156]? = some 48 := by
    intro hdr hb hfit h rest
    simp only [ustar, hfit, if_true] at h
    injection h with h
    rw [← h]
    simp only [fitsUSTAR, Bool.and_eq_true, decide_eq_true_eq] at hfit
    exact ustarBlock_typeflag _ _ (by simpa using hfit.1.1.2) rest
  refine ⟨?_, ?_, ?_⟩
  · intro hdr hb h
    rcases key hdr hb h with ⟨_, hu⟩ | ⟨_, hp⟩
    · exact ustar_lawful.block_length hdr hb hu
    · exact hpax.block_length hdr hb hp
  · intro hdr hb h
    rcases key hdr hb h with ⟨_, hu⟩ | ⟨_, hp⟩
    · exact ustar_lawful.block_nonzero hdr hb hu
    · exact hpax.block_nonzero hdr hb hp
  · intro hdr hb rest h
    rcases key hdr hb h with ⟨hfit, hu⟩ | ⟨_, hp⟩
    · simp only [tarLayout]
      rw [if_pos (hblock hdr hb hfit hu rest)]
      exact ustar_lawful.parse_format hdr hb rest hu
    · have hlen := hpax.block_length hdr hb hp
      have h156 : (hb ++ rest)[156]? = hb[156]? :=
        List.getElem?_append_left (by unfold blockSize at hlen; omega)
      simp only [tarLayout]
      rw [if_neg (by rw [h156]; exact hflag hdr hb hp)]
      exact hpax.parse_format hdr hb rest hp

/-! ## WriteFile: the archive it uploads -/

/-- C1 (as stated, refuted): the file name `a`, NUL, `b` is one no tar layout
can hold.  Whatever error the tar writer refuses the header with, and whatever
the PAX layout is, `WriteFile` returns that error wrapped under the
header-write message and stops there: the trace holds the header write alone,
so no archive is uploaded. -/
theorem WriteFile_header_refused :
    Split "/etc/headscale/a\x00b" = ("/etc/headscale/", "a\x00b") ∧
    ∀ (refusal : TarHeader → GoError) (pax : TarFormat),
      WriteFile (archiveTar (tarLayout refusal pax)) calmEnv sampleInstance
        "/etc/headscale/a\x00b" [1, 2, 3] [] =
        (some (.wrap "failed write file header to tar: "
            (refusal { Name := "a\x00b", Size := 3 })),
          [Event.tarWriteHeader { Name := "a\x00b", Size := 3 }]) := by
  have hs : Split "/etc/headscale/a\x00b" = ("/etc/headscale/", "a\x00b") := by decide
  refine ⟨hs, ?_⟩
  intro refusal pax
  have hh : (headerStage (archiveTar (tarLayout refusal pax)) "/etc/headscale/a\x00b"
      [1, 2, 3]).1 = some (refusal { Name := "a\x00b", Size := 3 }) := by
    have hnul : ("a\x00b" : String).data.any (fun c => decide (c.toNat = 0)) = true := by
      decide
    simp [headerStage, archiveTar, TarWriter.WriteHeader, TarWriter.Flush,
      TarWriter.NewWriter, tarLayout, fileHeader, hs, hnul]
  rw [WriteFile_header_error _ calmEnv sampleInstance "/etc/headscale/a\x00b" [1, 2, 3] [] _ hh]
  simp [fileHeader, hs]

/-- C1 (amended): for every path and payload, the empty one included, and
every header layout.  When the tar writer accepts the header, writing the
block(s) `hb`: the one header `WriteFile` writes declares the file-name part
of the path and the exact payload length; the archive is `hb`, then exactly
the payload, then the zero bytes that complete the last 512-byte block, then
the end marker of two zero blocks; reading the archive back, with a reader
that reads back the header blocks of the writer, yields the one entry of that
name and payload; no archive stage returns an error, so `WriteFile` ends with
the result of `mkdir -p` or of the upload, and the upload, when reached,
carries that archive.  When the tar writer refuses the header, `WriteFile`
returns the refusal wrapped under the header-write message, makes no further
call and uploads nothing. -/
theorem WriteFile_archive (fmt : TarFormat) (E : Env) (t : HeadscaleInContainer ACL)
    (path : String) (data : List UInt8) (tr : Trace) (fuel : Nat) :
    (∀ hb, fmt.formatHeader { Name := (Split path).2, Size := data.length } = .ok hb →
      archive (archiveTar fmt) path data =
        hb ++ data ++ List.replicate (blockPadding data.length) 0 ++ zeroBlock ++ zeroBlock ∧
      (data.length + blockPadding data.length) % blockSize = 0 ∧
      blockPadding data.length < blockSize ∧
      (fmt.Lawful → readArchive fmt (fuel + 2) (archive (archiveTar fmt) path data) =
        .ok [({ Name := (Split path).2, Size := data.length }, data)]) ∧
      (headerStage (archiveTar fmt) path data).1 = none ∧
      (copyStage (archiveTar fmt) path data).1 = none ∧
      (closeStage (archiveTar fmt) path data).1 = none ∧
      (∀ err, (mkdirStage (archiveTar fmt) E t path data tr).1.2 = some err →
        (WriteFile (archiveTar fmt) E t path data tr).1 =
          some (.wrap "failed to ensure directory: " err) ∧
        uploads (WriteFile (archiveTar fmt) E t path data tr).2 = uploads tr) ∧
      ((mkdirStage (archiveTar fmt) E t path data tr).1.2 = none →
        (WriteFile (archiveTar fmt) E t path data tr).1 =
          uploadStage (archiveTar fmt) E t path data tr ∧
        uploads (WriteFile (archiveTar fmt) E t path data tr).2 =
          uploads tr ++ [UploadToContainerOptions.mk false (Split path).1
            (hb ++ data ++ List.replicate (blockPadding data.length) 0 ++
              zeroBlock ++ zeroBlock)])) ∧
    (∀ cause, fmt.formatHeader { Name := (Split path).2, Size := data.length } = .error cause →
      WriteFile (archiveTar fmt) E t path data tr =
        (some (.wrap "failed write file header to tar: " cause),
          tr ++ [Event.tarWriteHeader { Name := (Split path).2, Size := data.length }]) ∧
      uploads (WriteFile (archiveTar fmt) E t path data tr).2 = uploads tr) := by
  refine ⟨?_, ?_⟩
  · intro hb hfmt
    have harch := archiveTar_archive fmt path data hb hfmt
    have h1 : (headerStage (archiveTar fmt) path data).1 = none := by
      rw [archiveTar_headerStage fmt path data hb hfmt]
    have h2 : (copyStage (archiveTar fmt) path data).1 = none := by
      rw [archiveTar_copyStage fmt path data hb hfmt]
    have h3 : (closeStage (archiveTar fmt) path data).1 = none := by
      rw [archiveTar_closeStage fmt path data hb hfmt]
    refine ⟨harch, blockPadding_completes _, blockPadding_lt _, ?_, h1, h2, h3, ?_, ?_⟩
    · intro hlaw
      rw [harch]
      exact readArchive_single fmt _ data hb fuel (by simp) (hlaw.block_length _ _ hfmt)
        (hlaw.block_nonzero _ _ hfmt) (fun rest => hlaw.parse_format _ _ rest hfmt)
    · intro err h4
      rw [WriteFile_mkdir_error _ E t path data tr err h1 h2 h3 h4,
        mkdirStage_trace_of_err _ E t path data tr err h4]
      exact ⟨rfl, by simp [uploads_append, archiveTrace, uploads]⟩
    · intro h4
      obtain ⟨extra, hextra, htr⟩ := WriteFile_trace_of_success _ E t path data tr h1 h2 h3 h4
      refine ⟨by rw [WriteFile_upload _ E t path data tr h1 h2 h3 h4], ?_⟩
      rw [htr]
      rcases hextra with rfl | ⟨line, rfl⟩ <;>
        simp [uploads_append, uploads, uploadRequest, harch]
  · intro cause hfmt
    have hh : (headerStage (archiveTar fmt) path data).1 = some cause := by
      simp [headerStage, archiveTar, TarWriter.WriteHeader, TarWriter.Flush,
        TarWriter.NewWriter, fileHeader, hfmt]
    rw [WriteFile_header_error _ E t path data tr cause hh]
    exact ⟨rfl, by simp [uploads_append, uploads]⟩

/-- C1, at concrete inputs: the policy file with the payload of an empty
JSON object, the same file with no payload at all, and a file whose name is
the NUL character. -/
theorem WriteFile_archive_witness :
    readArchive ustar 2 (archive (archiveTar ustar) "/etc/headscale/acl.hujson" [123, 125]) =
      .ok [({ Name := "acl.hujson", Size := 2 }, [123, 125])] ∧
    (archive (archiveTar ustar) "/etc/headscale/acl.hujson" [123, 125]).length = 2048 ∧
    (WriteFile (archiveTar ustar) calmEnv sampleInstance "/etc/headscale/acl.hujson"
      [123, 125] []).1 = none ∧
    readArchive ustar 2 (archive (archiveTar ustar) "/etc/headscale/acl.hujson" []) =
      .ok [({ Name := "acl.hujson", Size := 0 }, [])] ∧
    (archive (archiveTar ustar) "/etc/headscale/acl.hujson" []).length = 1536 ∧
    ∀ (refusal : TarHeader → GoError) (pax : TarFormat),
      (WriteFile (archiveTar (tarLayout refusal pax)) calmEnv sampleInstance "/srv/\x00"
        [] []).1 =
        some (.wrap "failed write file header to tar: " (refusal { Name := "\x00", Size := 0 })) := by
  have hs : Split "/etc/headscale/acl.hujson" = ("/etc/headscale/", "acl.hujson") := by decide
  have hs2 : Split "/srv/\x00" = ("/srv/", "\x00") := by decide
  have h512 : ∀ size, (ustarBlock [97, 99, 108, 46, 104, 117, 106, 115, 111, 110] size).length =
      blockSize := fun size => ustarBlock_length _ size (by decide)
  have h := (WriteFile_archive ustar calmEnv sampleInstance "/etc/headscale/acl.hujson"
    [123, 125] [] 0).1
    (ustarBlock [97, 99, 108, 46, 104, 117, 106, 115, 111, 110] 2) (by rw [hs]; rfl)
  have h0 := (WriteFile_archive ustar calmEnv sampleInstance "/etc/headscale/acl.hujson"
    [] [] 0).1
    (ustarBlock [97, 99, 108, 46, 104, 117, 106, 115, 111, 110] 0) (by rw [hs]; rfl)
  rw [hs] at h h0
  refine ⟨h.2.2.2.1 ustar_lawful, ?_, ?_, h0.2.2.2.1 ustar_lawful, ?_, ?_⟩
  · rw [h.1]
    simp only [List.length_append, h512, zeroBlock_length, List.length_replicate,
      List.length_cons, List.length_nil]
    decide
  · rw [(h.2.2.2.2.2.2.2.2 (by decide)).1]
    rfl
  · rw [h0.1]
    simp only [List.length_append, h512, zeroBlock_length, List.length_replicate,
      List.length_cons, List.length_nil]
    decide
  · intro refusal pax
    have hr := (WriteFile_archive (tarLayout refusal pax) calmEnv sampleInstance "/srv/\x00"
      [] [] 0).2 (refusal { Name := "\x00", Size := 0 }) (by
        have hnul : ("\x00" : String).data.any (fun c => decide (c.toNat = 0)) = true := by
          decide
        simp [tarLayout, hs2, hnul])
    rw [hr.1, hs2]

end Hsic
